import Mathlib

/-!
The address-to-buffer registry of `src/ref-napi.cc`

A shallow embedding of the registry functions of namespace `FFI`
(`UnregisterArrayBuffer`, `RegisterArrayBufferImpl`, `LookupOrCreateArrayBuffer`),
of the `InstanceData` methods built on them (`WrapPointer`, `GetBufferData`,
`RegisterArrayBuffer`), of the pointer primitives (`AddressForArgs`, `Address`,
`ReadPointer`, `WritePointer`), of the object primitives (`ReadObject`,
`WriteObject`) and of the reinterpreting ones (`ReinterpretBuffer`,
`ReinterpretBufferUntilZeros<T>`, `_reinterpretUntilZeros8`).

Conventions.
* A raw address (`char*`) is a natural number; `nullptr` is `0`. Pointers and
  `size_t` are 64 bits wide, arithmetic on them is taken modulo `2 ^ 64`.
* A managed object has an identity `id`, handed out by a counter of the
  environment. Two handles denote the same object exactly when their `id`s agree.
* A `Reference<ArrayBuffer>` created with reference count `0` is weak: it is either
  empty (`none`) or holds the buffer (`some ab`).
* The `std::unordered_map<char*, ArrayBufferEntry>` is a partial function from
  addresses to entries.
* Every operation is a function from the state before to the state after; a thrown
  JavaScript exception is a value of `Except`, returned next to the state the
  call leaves behind.
* The collector acts through two events: it reclaims a buffer, which empties the
  weak references to it (`InstanceData.collect`), and it runs a pending finalizer
  (`InstanceData.deliver`). An object that a persistent reference refers to is held
  and is not reclaimed.
* The coercion of an argument to a number can throw, and for an object it runs the
  conversion methods of that object, which are not in the sources: what they yield
  is a field of the environment (`Env.objectToNumber`).
* The largest length the runtime accepts for a buffer is a constant of the host.
  `Buffer.New` and `LookupOrCreateArrayBuffer` are the calls the runtime accepts;
  `Buffer.NewHost` and `LookupOrCreateArrayBufferHost` take the constant as an
  argument and include the refusal.
-/

namespace RefNapi

/-! ## Data model -/

/-- The constant `kMaxLength` of `ref-napi.cc`. -/
def kMaxLength : Nat := 0x3fffffff

/-- The bytes of a stored pointer, `sizeof(char*)`. -/
def sizeofPointer : Nat := 8

/-- The enum `ArrayBufferMode`. -/
inductive ArrayBufferMode where
  | AB_CREATED_BY_REF
  | AB_PASSED_TO_REF
deriving DecidableEq, Repr

/-- A handle to an `ArrayBuffer`: the identity of the object, the address `Data()`
returns and its `ByteLength()`. -/
structure ArrayBuffer where
  id : Nat
  data : Nat
  byteLength : Nat
deriving DecidableEq, Repr

/-- A handle to a `Buffer<char>`, a view of `length` bytes that starts `byteOffset`
bytes into its `ArrayBuffer`; the field `ab` is what the method `ArrayBuffer()`
returns. -/
structure Buffer where
  id : Nat
  ab : ArrayBuffer
  byteOffset : Nat
  length : Nat
deriving DecidableEq, Repr

/-- The method `Buffer<char>::Data()`: the address of the first byte of the view. -/
def Buffer.Data (b : Buffer) : Nat := b.ab.data + b.byteOffset

/-- Modelled from the spec: `ArrayBufferEntry` is declared in `ref-napi.h`, which is
not among the sources. The spec gives `{ canonicalRef: weak<ManagedBuffer> (may be
cleared), liveCount: integer ≥ 0 }`; the code names the fields `ab` and
`finalizer_count`. -/
structure ArrayBufferEntry where
  ab : Option ArrayBuffer
  finalizer_count : Nat
deriving DecidableEq, Repr

/-- The finalizers the code attaches to managed objects, one constructor for each
lambda of the source. -/
inductive Finalizer where
  /-- The lambda that runs `UnregisterArrayBuffer(data, ptr)`: a release callback. -/
  | unregister (ptr : Nat)
  /-- The empty lambda of the null branch of `WrapPointer`. -/
  | noop
  /-- The lambda of `WritePointer` that deletes the persistent reference to the
  object `target`; until it runs, that reference keeps `target` alive. -/
  | deleteRef (target : Nat)
deriving DecidableEq, Repr

/-- The faults of native code that are not JavaScript exceptions. -/
inductive Fault where
  /-- The iterator `end()` of the map was dereferenced. -/
  | endDereferenced
  /-- A `finalizer_count` of `0` was decremented. -/
  | countUnderflow
deriving DecidableEq, Repr

/-- The exceptions a call can end with: the `TypeError` and the `Error` that the
code and the runtime throw (the spec calls them `TypeArgumentError` and
`NullDereference`), and a value thrown by code outside the sources, which is what
the conversion method of an object can throw. -/
inductive Exception where
  | TypeError
  | Error
  | foreign (tag : Nat)
deriving DecidableEq, Repr

/-- The runtime environment `Napi::Env` together with the process memory: the
counter of object identities, the finalizers attached so far (each with the
identity of the object it is attached to), the bytes of raw memory and, for the
object of every identity, what its own conversion to a number yields. That
conversion runs the `valueOf` and `toString` of the object, code outside the
sources: it gives a number, `NaN` (`none`), or throws. The conversion methods are
taken not to call back into the module. -/
structure Env where
  nextId : Nat
  finalizers : List (Nat × Finalizer)
  memory : Nat → Nat
  objectToNumber : Nat → Except Exception (Option Int)

/-- Modelled from the spec: `InstanceData` is declared in `ref-napi.h`, which is not
among the sources. The code uses its fields `env`, `pointer_to_orig_buffer` (the
registry, keyed by raw address) and `buffer_from` (see `buffer_from` below). -/
structure InstanceData where
  env : Env
  pointer_to_orig_buffer : Nat → Option ArrayBufferEntry

/-- The state of a freshly loaded module: no object allocated, no finalizer
attached, memory all zero, registry empty; the objects of this example state all
convert to `NaN`. -/
def InstanceData.initial : InstanceData :=
  { env :=
      { nextId := 0, finalizers := [], memory := fun _ => 0,
        objectToNumber := fun _ => .ok none }
    pointer_to_orig_buffer := fun _ => none }

/-! ## The map operations used by the code -/

/-- The call `pointer_to_orig_buffer.erase(it)` for the iterator at key `ptr`. -/
def InstanceData.erase (data : InstanceData) (ptr : Nat) : InstanceData :=
  { data with
    pointer_to_orig_buffer := fun q => if q = ptr then none else data.pointer_to_orig_buffer q }

/-- Assignment through the iterator at key `ptr` (`it->second = e`), and
`pointer_to_orig_buffer.emplace(ptr, e)` when the key is absent. -/
def InstanceData.store (data : InstanceData) (ptr : Nat) (e : ArrayBufferEntry) :
    InstanceData :=
  { data with
    pointer_to_orig_buffer := fun q => if q = ptr then some e else data.pointer_to_orig_buffer q }

/-- The call `obj.AddFinalizer(f, ...)` on the object with identity `id`. -/
def InstanceData.AddFinalizer (data : InstanceData) (id : Nat) (f : Finalizer) :
    InstanceData :=
  { data with env := { data.env with finalizers := (id, f) :: data.env.finalizers } }

/-! ## Namespace `FFI` of the source -/

/-- The function `FFI::UnregisterArrayBuffer`. The code dereferences the result of
`find` without comparing it to `end()`, and decrements the count without
looking at it first: with no entry the call is `Fault.endDereferenced`, and with a
count of `0` the decrement leaves the range `integer ≥ 0` the spec gives the count,
which is `Fault.countUnderflow`. -/
def UnregisterArrayBuffer (data : InstanceData) (ptr : Nat) : Except Fault InstanceData :=
  match data.pointer_to_orig_buffer ptr with
  | none => .error .endDereferenced
  | some it =>
    if it.finalizer_count = 0 then .error .countUnderflow
    else if it.finalizer_count - 1 = 0 then .ok (data.erase ptr)
    else .ok (data.store ptr { it with finalizer_count := it.finalizer_count - 1 })

/-- The function `FFI::RegisterArrayBufferImpl`. -/
def RegisterArrayBufferImpl (data : InstanceData) (buf : ArrayBuffer)
    (mode : ArrayBufferMode) : InstanceData :=
  let ptr := buf.data
  if ptr = 0 then data
  else
    let addFinalizer := fun (d : InstanceData) =>
      if mode ≠ .AB_CREATED_BY_REF then d.AddFinalizer buf.id (.unregister ptr) else d
    match data.pointer_to_orig_buffer ptr with
    | some it =>
      if it.ab.isSome then data
      else
        addFinalizer
          (data.store ptr { ab := some buf, finalizer_count := it.finalizer_count + 1 })
    | none => addFinalizer (data.store ptr { ab := some buf, finalizer_count := 1 })

/-- The external-buffer constructor `Buffer<char>::New(env, ptr, length, finalizer)`
of the N-API wrapper, for a length the runtime accepts: a new `ArrayBuffer` over
`ptr`, a new view of all of it, and the finalizer attached to the backing store.
The constructor of a runtime that refuses a length is `Buffer.NewHost`. -/
def Buffer.New (data : InstanceData) (ptr length : Nat) (finalizer : Finalizer) :
    Buffer × InstanceData :=
  let ab : ArrayBuffer := { id := data.env.nextId, data := ptr, byteLength := length }
  let view : Buffer := { id := data.env.nextId + 1, ab := ab, byteOffset := 0, length := length }
  (view,
   { data with
     env := { data.env with
              nextId := data.env.nextId + 2
              finalizers := (ab.id, finalizer) :: data.env.finalizers } })

/-- The function `FFI::LookupOrCreateArrayBuffer`, for a length the constructor
accepts. The `assert(ptr != nullptr)` of the source is the argument `_h`. The same
function on a runtime that refuses a length is `LookupOrCreateArrayBufferHost`. -/
def LookupOrCreateArrayBuffer (data : InstanceData) (ptr length : Nat) (_h : ptr ≠ 0) :
    ArrayBuffer × InstanceData :=
  let ab : Option ArrayBuffer :=
    match data.pointer_to_orig_buffer ptr with
    | some it => it.ab
    | none => none
  match ab with
  | some ab => (ab, data)
  | none =>
    let length := max length kMaxLength
    let created := Buffer.New data ptr length (.unregister ptr)
    let ab := created.1.ab
    (ab, RegisterArrayBufferImpl created.2 ab .AB_CREATED_BY_REF)

/-- The method `FFI::InstanceData::RegisterArrayBuffer`. -/
def InstanceData.RegisterArrayBuffer (data : InstanceData) (val : ArrayBuffer) :
    InstanceData :=
  RegisterArrayBufferImpl data val .AB_PASSED_TO_REF

/-- Modelled from the spec: `buffer_from` is a function reference held by
`InstanceData` and set outside the sources. The spec has `wrap` return a managed
buffer view of the requested length over the canonical buffer, so
`buffer_from.Call({ab, offset, length})` is a new view object of `length` bytes
at `offset` in `ab`. -/
def InstanceData.buffer_from (data : InstanceData) (ab : ArrayBuffer) (offset length : Nat) :
    Buffer × InstanceData :=
  ({ id := data.env.nextId, ab := ab, byteOffset := offset, length := length },
   { data with env := { data.env with nextId := data.env.nextId + 1 } })

/-- The method `FFI::InstanceData::WrapPointer`. -/
def InstanceData.WrapPointer (data : InstanceData) (ptr length : Nat) :
    Buffer × InstanceData :=
  let length := if ptr = 0 then 0 else length
  if h : ptr ≠ 0 then
    let found := LookupOrCreateArrayBuffer data ptr length h
    found.2.buffer_from found.1 0 length
  else
    Buffer.New data ptr length .noop

/-- The method `FFI::InstanceData::GetBufferData`. -/
def InstanceData.GetBufferData (data : InstanceData) (buf : Buffer) : Nat × InstanceData :=
  (buf.Data, data.RegisterArrayBuffer buf.ab)

/-! ## JavaScript values and call arguments -/

/-- The JavaScript values the primitives are called with. A `number n` is a number
that `napi_get_value_int64` reads as the integer `n`. A `Buffer` is an object too.
A `symbol` and a `bigint` are the two kinds of value that have no conversion to a
number. -/
inductive Value where
  | undefined
  | null
  | boolean (b : Bool)
  | number (n : Int)
  | object (id : Nat)
  | buffer (b : Buffer)
  | symbol
  | bigint (n : Int)
deriving DecidableEq, Repr

/-- The test `Value::IsBuffer()`. -/
def Value.IsBuffer : Value → Bool
  | .buffer _ => true
  | _ => false

/-- The test `Value::IsNull()`. -/
def Value.IsNull : Value → Bool
  | .null => true
  | _ => false

/-- The test `Value::IsObject()`. -/
def Value.IsObject : Value → Bool
  | .object _ => true
  | .buffer _ => true
  | _ => false

/-- The coercion `Value::ToNumber()` (`napi_coerce_to_number`); `none` is `NaN`. It
throws `TypeError` for a `Symbol` and for a `BigInt`. An object, a `Buffer` included,
is converted by its own methods, and what they yield, a number or an exception, is
what the coercion yields. -/
def Value.ToNumber (v : Value) (env : Env) : Except Exception (Option Int) :=
  match v with
  | .undefined => .ok none
  | .null => .ok (some 0)
  | .boolean b => .ok (some (if b then 1 else 0))
  | .number n => .ok (some n)
  | .object id => env.objectToNumber id
  | .buffer b => env.objectToNumber b.id
  | .symbol => .error .TypeError
  | .bigint _ => .error .TypeError

/-- The conversion of a `Number` to `int64_t`: `NaN` reads as `0`, an integer is
brought into the range of `int64_t`. -/
def Int64Value : Option Int → Int
  | none => 0
  | some n => (n + 2 ^ 63) % 2 ^ 64 - 2 ^ 63

/-- The conversion of an `int64_t` to `size_t`. -/
def toSizeT (n : Int) : Nat := (n % 2 ^ 64).toNat

/-- Pointer arithmetic `ptr + offset` with an `int64_t` offset. -/
def ptrAdd (ptr : Nat) (offset : Int) : Nat := (((ptr : Int) + offset) % 2 ^ 64).toNat

/-- The arguments of a call, `CallbackInfo`: `args[i]` is `undefined` past the end. -/
def arg (args : List Value) (i : Nat) : Value := args.getD i .undefined

/-! ## Raw memory -/

/-- The store `*reinterpret_cast<char**>(ptr) = val`: the eight bytes of `val`, least
significant first. -/
def storePointer (memory : Nat → Nat) (ptr val : Nat) : Nat → Nat :=
  fun a => if ptr ≤ a ∧ a < ptr + sizeofPointer then val / 256 ^ (a - ptr) % 256 else memory a

/-- The load `*reinterpret_cast<char**>(ptr)`. -/
def loadPointer (memory : Nat → Nat) (ptr : Nat) : Nat :=
  memory ptr % 256 + memory (ptr + 1) % 256 * 256 ^ 1 + memory (ptr + 2) % 256 * 256 ^ 2
    + memory (ptr + 3) % 256 * 256 ^ 3 + memory (ptr + 4) % 256 * 256 ^ 4
    + memory (ptr + 5) % 256 * 256 ^ 5 + memory (ptr + 6) % 256 * 256 ^ 6
    + memory (ptr + 7) % 256 * 256 ^ 7

/-- The state after a store of `val` at `ptr`. -/
def InstanceData.poke (data : InstanceData) (ptr val : Nat) : InstanceData :=
  { data with env := { data.env with memory := storePointer data.env.memory ptr val } }

/-! ## The primitives of the anonymous namespace -/

/-- The free function `WrapPointer(env, ptr, length)`. -/
def WrapPointer (data : InstanceData) (ptr length : Nat) : Buffer × InstanceData :=
  data.WrapPointer ptr length

/-- The free function `GetBufferData(val)`. -/
def GetBufferData (data : InstanceData) (val : Buffer) : Nat × InstanceData :=
  data.GetBufferData val

/-- The function `AddressForArgs(args, offset_index)`. The offset is coerced before
`GetBufferData` is called: when the coercion throws, the buffer has not been
registered. -/
def AddressForArgs (data : InstanceData) (args : List Value) (offset_index : Nat) :
    Except Exception Nat × InstanceData :=
  match arg args 0 with
  | .buffer buf =>
    match (arg args offset_index).ToNumber data.env with
    | .error e => (.error e, data)
    | .ok number =>
      let offset : Int := Int64Value number
      let got := GetBufferData data buf
      (.ok (ptrAdd got.1 offset), got.2)
  | _ => (.error .TypeError, data)

/-- The function `Address`: the address as a signed 64-bit integer. -/
def Address (data : InstanceData) (args : List Value) : Except Exception Int × InstanceData :=
  match AddressForArgs data args 1 with
  | (.ok ptr, d) => (.ok (if ptr < 2 ^ 63 then (ptr : Int) else (ptr : Int) - 2 ^ 64), d)
  | (.error e, d) => (.error e, d)

/-- The function `ReadPointer`. -/
def ReadPointer (data : InstanceData) (args : List Value) :
    Except Exception Buffer × InstanceData :=
  match AddressForArgs data args 1 with
  | (.error e, d) => (.error e, d)
  | (.ok ptr, d) =>
    if ptr = 0 then (.error .Error, d)
    else
      match (arg args 2).ToNumber d.env with
      | .error e => (.error e, d)
      | .ok number =>
        let size : Int := Int64Value number
        let val := loadPointer d.env.memory ptr
        let wrapped := WrapPointer d val (toSizeT size)
        (.ok wrapped.1, wrapped.2)

/-- The function `WritePointer`. With four arguments the last is read as a boolean,
which throws when it is none. -/
def WritePointer (data : InstanceData) (args : List Value) :
    Except Exception Unit × InstanceData :=
  match AddressForArgs data args 2 with
  | (.error e, d) => (.error e, d)
  | (.ok ptr, d) =>
    match arg args 1 with
    | .null => (.ok (), d.poke ptr 0)
    | .buffer input =>
      let pinned : Except Exception InstanceData :=
        if args.length = 4 then
          match arg args 3, arg args 0 with
          | .boolean true, .buffer target => .ok (d.AddFinalizer target.id (.deleteRef input.id))
          | .boolean _, _ => .ok d
          | _, _ => .error .Error
        else .ok d
      match pinned with
      | .error e => (.error e, d)
      | .ok d =>
        let got := GetBufferData d input
        (.ok (), got.2.poke ptr got.1)
    | _ => (.error .TypeError, d)

/-! ## Observations and sequences of calls -/

/-- The canonical buffer of `ptr`: what `it->second.ab.Value()` returns after a
successful `find`, and empty when there is no entry. -/
def InstanceData.canonical (data : InstanceData) (ptr : Nat) : Option ArrayBuffer :=
  match data.pointer_to_orig_buffer ptr with
  | some it => it.ab
  | none => none

/-- The `finalizer_count` recorded for `ptr`, `0` when there is no entry. -/
def InstanceData.count (data : InstanceData) (ptr : Nat) : Nat :=
  match data.pointer_to_orig_buffer ptr with
  | some it => it.finalizer_count
  | none => 0

/-- The collector reclaims the `ArrayBuffer` with identity `id`: every weak reference
that held it is empty from then on. The finalizers attached to the buffer stay
pending; they run later, each as a call of its own. -/
def InstanceData.collect (data : InstanceData) (id : Nat) : InstanceData :=
  { data with
    pointer_to_orig_buffer := fun q =>
      match data.pointer_to_orig_buffer q with
      | some it =>
        some (if it.ab.map (fun ab => ab.id) = some id then { it with ab := none } else it)
      | none => none }

/-- A registration of `buf` made after the canonical buffer its address had, if
any, was reclaimed. -/
def registerAfterCollect (data : InstanceData) (buf : ArrayBuffer) (mode : ArrayBufferMode) :
    InstanceData :=
  RegisterArrayBufferImpl
    (match data.canonical buf.data with
     | some ab => data.collect ab.id
     | none => data)
    buf mode

/-- The buffers of `bufs` registered one after the other, each after the one before
it was reclaimed. -/
def registerEach (data : InstanceData) (bufs : List ArrayBuffer) (mode : ArrayBufferMode) :
    InstanceData :=
  match bufs with
  | [] => data
  | buf :: rest => registerEach (registerAfterCollect data buf mode) rest mode

/-- The call `UnregisterArrayBuffer(data, ptr)` made `n` times in a row. -/
def unregisterTimes (n : Nat) (data : InstanceData) (ptr : Nat) : Except Fault InstanceData :=
  match n with
  | 0 => .ok data
  | n + 1 =>
    match UnregisterArrayBuffer data ptr with
    | .ok d => unregisterTimes n d ptr
    | .error f => .error f

/-- The registry is keyed by base address: a buffer held as the canonical reference
of the entry for `p` has `Data() = p`. Every entry is written by
`RegisterArrayBufferImpl` under the key `buf.Data()`, so the states the code
produces satisfy this. -/
def InstanceData.RegistryKeyed (data : InstanceData) : Prop :=
  ∀ (p : Nat) (it : ArrayBufferEntry) (ab : ArrayBuffer),
    data.pointer_to_orig_buffer p = some it → it.ab = some ab → ab.data = p

/-- A buffer at address `4096`, used in the examples. -/
def exampleBuffer : Buffer :=
  { id := 1, ab := { id := 0, data := 4096, byteLength := 8 }, byteOffset := 0, length := 8 }

/-- A second buffer, at address `8192`, used in the examples. -/
def exampleTarget : Buffer :=
  { id := 3, ab := { id := 2, data := 8192, byteLength := 16 }, byteOffset := 0, length := 16 }

/-- The `Reference<Object>` values the module keeps in raw memory. `live` lists the
references created and not yet deleted, each handle (`napi_ref`) with the object it
refers to; `slot p` is the handle held by the `Reference<Object>` that lies at
address `p`, `none` when its `_ref` is `nullptr`; `nextRef` is the handle the
next `napi_create_reference` returns. -/
structure References where
  nextRef : Nat
  live : List (Nat × Value)
  slot : Nat → Option Nat

/-- No reference created, every slot empty. -/
def References.initial : References :=
  { nextRef := 0, live := [], slot := fun _ => none }

/-- The handles stored in memory were handed out before: none of them is the handle
the next `Reference<Object>::New` returns. -/
def References.Issued (refs : References) : Prop :=
  ∀ (p h : Nat), refs.slot p = some h → h < refs.nextRef

/-- The call `Reference<Object>::New(val)`, with the default reference count `0`: a
new handle, referring to `val`. -/
def References.New (refs : References) (val : Value) : Nat × References :=
  (refs.nextRef, { refs with nextRef := refs.nextRef + 1, live := (refs.nextRef, val) :: refs.live })

/-- The method `Reference<Object>::Reset()` of the reference at address `ptr`: a held
handle is deleted (`napi_delete_reference`) and `_ref` becomes `nullptr`. -/
def References.Reset (refs : References) (ptr : Nat) : References :=
  match refs.slot ptr with
  | none => refs
  | some h =>
    { refs with
      live := refs.live.filter (fun e => e.1 ≠ h)
      slot := fun q => if q = ptr then none else refs.slot q }

/-- The move assignment `*rptr = std::move(r)` for the reference at address `ptr`:
`Reset()`, then the handle of `r` is taken over. -/
def References.moveAssign (refs : References) (ptr handle : Nat) : References :=
  { refs.Reset ptr with slot := fun q => if q = ptr then some handle else (refs.Reset ptr).slot q }

/-- The method `Reference<Object>::Value()` of the reference at address `ptr`: the
object the held handle refers to, and the empty value, which a caller in JavaScript
sees as `undefined`, when no handle is held. -/
def References.Value (refs : References) (ptr : Nat) : Value :=
  match refs.slot ptr with
  | none => .undefined
  | some h =>
    match refs.live.find? (fun e => e.1 = h) with
    | some e => e.2
    | none => .undefined

/-- The function `ReadObject`. -/
def ReadObject (data : InstanceData) (refs : References) (args : List Value) :
    Except Exception Value × InstanceData :=
  match AddressForArgs data args 1 with
  | (.error e, d) => (.error e, d)
  | (.ok ptr, d) =>
    if ptr = 0 then (.error .Error, d)
    else (.ok (refs.Value ptr), d)

/-- The function `WriteObject`. -/
def WriteObject (data : InstanceData) (refs : References) (args : List Value) :
    Except Exception Unit × InstanceData × References :=
  match AddressForArgs data args 2 with
  | (.error e, d) => (.error e, d, refs)
  | (.ok ptr, d) =>
    if ptr = 0 then (.error .Error, d, refs)
    else
      let obj := arg args 1
      if obj.IsObject then
        let created := refs.New obj
        (.ok (), d, created.2.moveAssign ptr created.1)
      else if obj.IsNull then (.ok (), d, refs.Reset ptr)
      else (.error .TypeError, d, refs)

/-! ## Reinterpretation -/

/-- The function `ReinterpretBuffer`. -/
def ReinterpretBuffer (data : InstanceData) (args : List Value) :
    Except Exception Buffer × InstanceData :=
  match AddressForArgs data args 2 with
  | (.error e, d) => (.error e, d)
  | (.ok ptr, d) =>
    if ptr = 0 then (.error .Error, d)
    else
      match (arg args 1).ToNumber d.env with
      | .error e => (.error e, d)
      | .ok number =>
        let size : Int := Int64Value number
        let wrapped := WrapPointer d ptr (toSizeT size)
        (.ok wrapped.1, wrapped.2)

/-- The load `*(T*)(addr)` for an unsigned `T` of `sizeofT` bytes: the value of the
bytes at `addr`, least significant first. It is `0` exactly when every byte is. -/
def loadElement (memory : Nat → Nat) (addr : Nat) : Nat → Nat
  | 0 => 0
  | sizeofT + 1 => memory addr % 256 + 256 * loadElement memory (addr + 1) sizeofT

/-- The loop of `ReinterpretBufferUntilZeros<T>`, entered with the current value of
`size`: `while (size < kMaxLength) { if (*(T*)(ptr + size) == 0) break; size +=
sizeof(T); }`. The value is `size` when the loop is left. -/
def scanUntilZeros (memory : Nat → Nat) (ptr sizeofT : Nat) (hT : 0 < sizeofT) (size : Nat) :
    Nat :=
  if _h : size < kMaxLength then
    if loadElement memory (ptr + size) sizeofT = 0 then size
    else scanUntilZeros memory ptr sizeofT hT (size + sizeofT)
  else size
termination_by kMaxLength - size
decreasing_by omega

/-- The function template `ReinterpretBufferUntilZeros<T>`, for a `T` of `sizeofT`
bytes. -/
def ReinterpretBufferUntilZeros (sizeofT : Nat) (hT : 0 < sizeofT) (data : InstanceData)
    (args : List Value) : Except Exception Buffer × InstanceData :=
  match AddressForArgs data args 1 with
  | (.error e, d) => (.error e, d)
  | (.ok ptr, d) =>
    if ptr = 0 then (.error .Error, d)
    else
      let size := scanUntilZeros d.env.memory ptr sizeofT hT 0
      let wrapped := WrapPointer d ptr size
      (.ok wrapped.1, wrapped.2)

/-- The library function `strlen(ptr)`, looking at the byte at `ptr + n` next: the
offset of the first zero byte. The search has no bound of its own; `fuel` bounds the
bytes looked at, and `none` is a search that has not ended within it. -/
def strlenFrom (memory : Nat → Nat) (ptr : Nat) : Nat → Nat → Option Nat
  | 0, _ => none
  | fuel + 1, n =>
    if memory (ptr + n) % 256 = 0 then some n else strlenFrom memory ptr fuel (n + 1)

/-- The library function `strlen(ptr)`. -/
def strlen (fuel : Nat) (memory : Nat → Nat) (ptr : Nat) : Option Nat :=
  strlenFrom memory ptr fuel 0

/-- The function `_reinterpretUntilZeros8`; `none` when `strlen` has not returned
within `fuel` bytes. -/
def _reinterpretUntilZeros8 (fuel : Nat) (data : InstanceData) (args : List Value) :
    Option (Except Exception Buffer × InstanceData) :=
  match AddressForArgs data args 1 with
  | (.error e, d) => some (.error e, d)
  | (.ok ptr, d) =>
    if ptr = 0 then some (.error .Error, d)
    else
      match strlen fuel d.env.memory ptr with
      | none => none
      | some size =>
        let wrapped := WrapPointer d ptr size
        some (.ok wrapped.1, wrapped.2)

/-- The function `_reinterpretUntilZeros16`. -/
def _reinterpretUntilZeros16 (data : InstanceData) (args : List Value) :
    Except Exception Buffer × InstanceData :=
  ReinterpretBufferUntilZeros 2 (by decide) data args

/-- The function `_reinterpretUntilZeros32`. -/
def _reinterpretUntilZeros32 (data : InstanceData) (args : List Value) :
    Except Exception Buffer × InstanceData :=
  ReinterpretBufferUntilZeros 4 (by decide) data args

/-- The function `_reinterpretUntilZeros64`. -/
def _reinterpretUntilZeros64 (data : InstanceData) (args : List Value) :
    Except Exception Buffer × InstanceData :=
  ReinterpretBufferUntilZeros 8 (by decide) data args

/-- The export of `Init` that scans elements of `w` bytes: `_reinterpretUntilZeros8`
for `w = 1`, `_reinterpretUntilZeros16` for `2`, `_reinterpretUntilZeros32` for `4`,
`_reinterpretUntilZeros64` for `8`; there is none for another width. -/
def reinterpretUntilZerosOfWidth (w fuel : Nat) (data : InstanceData) (args : List Value) :
    Option (Except Exception Buffer × InstanceData) :=
  if w = 1 then _reinterpretUntilZeros8 fuel data args
  else if w = 2 then some (_reinterpretUntilZeros16 data args)
  else if w = 4 then some (_reinterpretUntilZeros32 data args)
  else if w = 8 then some (_reinterpretUntilZeros64 data args)
  else none

/-- The state `data` with the raw memory replaced by `memory`. -/
def InstanceData.withMemory (data : InstanceData) (memory : Nat → Nat) : InstanceData :=
  { data with env := { data.env with memory := memory } }

/-- A memory for the examples: twelve bytes `1` from address `4096` on, every other
byte `0`. Read as 32-bit elements from `4096`, the first zero element is at byte
offset `12`. -/
def memoryZeroAt12 : Nat → Nat :=
  fun a => if 4096 ≤ a ∧ a < 4108 then 1 else 0

/-- A memory for the examples: every byte is `1`. -/
def memoryNoZero : Nat → Nat :=
  fun _ => 1

/-- A memory for the examples: every byte is `1`, but for the byte `0x40000004` bytes
after address `4096`, which is `0`. -/
def memoryLateZero : Nat → Nat :=
  fun a => if a = 4096 + 0x40000004 then 0 else 1

/-! ## Finalization -/

/-- The release callbacks still pending for `ptr`: the finalizers attached so far,
and not yet run, that call `UnregisterArrayBuffer(data, ptr)`. -/
def InstanceData.pending (data : InstanceData) (ptr : Nat) : Nat :=
  data.env.finalizers.countP (fun f => f.2 = Finalizer.unregister ptr)

/-- The environment runs the pending finalizer `f` of the object `id`: it is taken
off the list of pending finalizers and its body is executed. -/
def InstanceData.deliver (data : InstanceData) (id : Nat) (f : Finalizer) :
    Except Fault InstanceData :=
  let d : InstanceData :=
    { data with env := { data.env with finalizers := data.env.finalizers.erase (id, f) } }
  match f with
  | .unregister ptr => UnregisterArrayBuffer d ptr
  | .noop => .ok d
  | .deleteRef _ => .ok d

/-- What a call leaves on a runtime that may refuse to construct a buffer: a result
and the state after, an exception thrown to the caller and the state after, or a
fault of native code. -/
inductive Outcome (α : Type) where
  | ok (result : α) (data : InstanceData)
  | thrown (e : Exception) (data : InstanceData)
  | fault (f : Fault)

/-- The constructor `Buffer<char>::New(env, ptr, length, finalizer)` on a runtime whose
largest buffer length is `hostMax`, a constant of the host and not of the sources.
A length up to `hostMax` is accepted, and the call is `Buffer.New`. A longer one is
refused: the runtime calls the finalizer at once, on `ptr`, and the constructor
throws the error of the runtime. -/
def Buffer.NewHost (hostMax : Nat) (data : InstanceData) (ptr length : Nat)
    (finalizer : Finalizer) : Outcome Buffer :=
  if length ≤ hostMax then
    .ok (Buffer.New data ptr length finalizer).1 (Buffer.New data ptr length finalizer).2
  else
    match finalizer with
    | .unregister p =>
      match UnregisterArrayBuffer data p with
      | .ok d => .thrown .Error d
      | .error f => .fault f
    | .noop => .thrown .Error data
    | .deleteRef _ => .thrown .Error data

/-- The function `FFI::LookupOrCreateArrayBuffer` on a runtime whose largest buffer
length is `hostMax`. The code hands the release callback to the constructor before
`RegisterArrayBufferImpl` has made the entry, and does not look at `length` first. -/
def LookupOrCreateArrayBufferHost (hostMax : Nat) (data : InstanceData) (ptr length : Nat)
    (_h : ptr ≠ 0) : Outcome ArrayBuffer :=
  let ab : Option ArrayBuffer :=
    match data.pointer_to_orig_buffer ptr with
    | some it => it.ab
    | none => none
  match ab with
  | some ab => .ok ab data
  | none =>
    let length := max length kMaxLength
    match Buffer.NewHost hostMax data ptr length (.unregister ptr) with
    | .ok created d => .ok created.ab (RegisterArrayBufferImpl d created.ab .AB_CREATED_BY_REF)
    | .thrown e d => .thrown e d
    | .fault f => .fault f

/-- The states reached, on a runtime whose largest buffer length is `hostMax`, from
an empty registry with no release callback pending: by registrations of passed-in
buffers (`RegisterArrayBuffer`), by calls of `LookupOrCreateArrayBuffer` that find a
canonical buffer or whose construction the runtime accepts, by the collector
reclaiming a buffer, and by the delivery of a pending finalizer. A registration
as `AB_CREATED_BY_REF` is made by `LookupOrCreateArrayBuffer` only, after the
constructor has taken the release callback. -/
inductive Reachable (hostMax : Nat) : InstanceData → Prop where
  | empty (d : InstanceData) :
      (∀ p, d.pointer_to_orig_buffer p = none) → (∀ p, d.pending p = 0) →
      Reachable hostMax d
  | register (d : InstanceData) (buf : ArrayBuffer) :
      Reachable hostMax d → Reachable hostMax (d.RegisterArrayBuffer buf)
  | lookupOrCreate (d : InstanceData) (ptr length : Nat) (h : ptr ≠ 0) :
      Reachable hostMax d →
      ((d.canonical ptr).isSome = true ∨ max length kMaxLength ≤ hostMax) →
      Reachable hostMax (LookupOrCreateArrayBuffer d ptr length h).2
  | collect (d : InstanceData) (id : Nat) :
      Reachable hostMax d → Reachable hostMax (d.collect id)
  | deliver (d : InstanceData) (id : Nat) (f : Finalizer) (d2 : InstanceData) :
      Reachable hostMax d → (id, f) ∈ d.env.finalizers → d.deliver id f = .ok d2 →
      Reachable hostMax d2

/-- The count of every address equals the number of its pending release callbacks,
and no entry has count `0`. -/
def InstanceData.Counted (data : InstanceData) : Prop :=
  ∀ p, data.count p = data.pending p
    ∧ ∀ it, data.pointer_to_orig_buffer p = some it → 1 ≤ it.finalizer_count

/-- What every call of the module keeps, seen from the address `p`: the finalizers
pending before are still pending after, and if `p` had a valid canonical buffer
before, its entry is the same after. -/
def InstanceData.Preserves (p : Nat) (d d2 : InstanceData) : Prop :=
  (∀ x, x ∈ d.env.finalizers → x ∈ d2.env.finalizers)
  ∧ ((d.canonical p).isSome = true → d2.pointer_to_orig_buffer p = d.pointer_to_orig_buffer p)

/-- The object `target` is held by a persistent reference: a pending finalizer is the
one that will delete a strong reference to it. The collector does not reclaim an
object that is held. -/
def InstanceData.held (data : InstanceData) (target : Nat) : Prop :=
  ∃ owner, (owner, Finalizer.deleteRef target) ∈ data.env.finalizers

/-- A step that leaves the object `owner` unfinalized: a call of one of the functions
of the module, the collector reclaiming a buffer, or the delivery of a finalizer
attached to an object other than `owner`. -/
inductive StepKeeping (owner : Nat) : InstanceData → InstanceData → Prop where
  | register (d : InstanceData) (buf : ArrayBuffer) :
      StepKeeping owner d (d.RegisterArrayBuffer buf)
  | wrapPointer (d : InstanceData) (ptr length : Nat) :
      StepKeeping owner d (WrapPointer d ptr length).2
  | address (d : InstanceData) (args : List Value) : StepKeeping owner d (Address d args).2
  | readPointer (d : InstanceData) (args : List Value) :
      StepKeeping owner d (ReadPointer d args).2
  | writePointer (d : InstanceData) (args : List Value) :
      StepKeeping owner d (WritePointer d args).2
  | readObject (d : InstanceData) (refs : References) (args : List Value) :
      StepKeeping owner d (ReadObject d refs args).2
  | writeObject (d : InstanceData) (refs : References) (args : List Value) :
      StepKeeping owner d (WriteObject d refs args).2.1
  | reinterpret (d : InstanceData) (args : List Value) :
      StepKeeping owner d (ReinterpretBuffer d args).2
  | reinterpretUntilZeros (w : Nat) (hT : 0 < w) (d : InstanceData) (args : List Value) :
      StepKeeping owner d (ReinterpretBufferUntilZeros w hT d args).2
  | reinterpretUntilZeros8 (fuel : Nat) (d : InstanceData) (args : List Value)
      (r : Except Exception Buffer × InstanceData) :
      _reinterpretUntilZeros8 fuel d args = some r → StepKeeping owner d r.2
  | collect (d : InstanceData) (id : Nat) : StepKeeping owner d (d.collect id)
  | deliver (d : InstanceData) (id : Nat) (f : Finalizer) (d2 : InstanceData) :
      id ≠ owner → (id, f) ∈ d.env.finalizers → d.deliver id f = .ok d2 → StepKeeping owner d d2

/-! ## Lemmas on the registry functions -/

theorem lookupOrCreate_hit (data : InstanceData) (ptr length : Nat) (h : ptr ≠ 0)
    (ab : ArrayBuffer) (hc : data.canonical ptr = some ab) :
    LookupOrCreateArrayBuffer data ptr length h = (ab, data) := by
  unfold InstanceData.canonical at hc
  unfold LookupOrCreateArrayBuffer
  simp only [hc]

theorem lookupOrCreate_canonical (data : InstanceData) (ptr length : Nat) (h : ptr ≠ 0) :
    (LookupOrCreateArrayBuffer data ptr length h).2.canonical ptr
      = some (LookupOrCreateArrayBuffer data ptr length h).1 := by
  unfold LookupOrCreateArrayBuffer InstanceData.canonical
  cases hf : data.pointer_to_orig_buffer ptr with
  | none =>
    simp [RegisterArrayBufferImpl, Buffer.New, InstanceData.store, hf, h]
  | some it =>
    cases hab : it.ab with
    | some ab => simp [hf, hab]
    | none =>
      simp [RegisterArrayBufferImpl, Buffer.New, InstanceData.store, hf, hab, h]

theorem buffer_from_registry (data : InstanceData) (ab : ArrayBuffer) (offset length : Nat) :
    (data.buffer_from ab offset length).2.pointer_to_orig_buffer = data.pointer_to_orig_buffer :=
  rfl

theorem buffer_from_canonical (data : InstanceData) (ab : ArrayBuffer) (offset length : Nat)
    (q : Nat) : (data.buffer_from ab offset length).2.canonical q = data.canonical q :=
  rfl

theorem wrapPointer_nonnull (data : InstanceData) (ptr length : Nat) (h : ptr ≠ 0) :
    data.WrapPointer ptr length
      = (LookupOrCreateArrayBuffer data ptr length h).2.buffer_from
          (LookupOrCreateArrayBuffer data ptr length h).1 0 length := by
  simp [InstanceData.WrapPointer, h]

theorem lookupOrCreate_miss_byteLength (data : InstanceData) (p length : Nat) (hp : p ≠ 0)
    (hmiss : data.canonical p = none) :
    (LookupOrCreateArrayBuffer data p length hp).1
      = { id := data.env.nextId, data := p, byteLength := max length kMaxLength } := by
  unfold InstanceData.canonical at hmiss
  unfold LookupOrCreateArrayBuffer
  simp only [hmiss]
  rfl

theorem register_on_absent (data : InstanceData) (buf : ArrayBuffer) (mode : ArrayBufferMode)
    (hp : buf.data ≠ 0) (hnone : data.pointer_to_orig_buffer buf.data = none) :
    (RegisterArrayBufferImpl data buf mode).pointer_to_orig_buffer buf.data
      = some { ab := some buf, finalizer_count := 1 } := by
  unfold RegisterArrayBufferImpl
  cases mode <;> simp [hp, hnone, InstanceData.store, InstanceData.AddFinalizer]

theorem register_on_cleared (data : InstanceData) (buf : ArrayBuffer) (mode : ArrayBufferMode)
    (hp : buf.data ≠ 0) (it : ArrayBufferEntry)
    (hfind : data.pointer_to_orig_buffer buf.data = some it) (hab : it.ab = none) :
    (RegisterArrayBufferImpl data buf mode).pointer_to_orig_buffer buf.data
      = some { ab := some buf, finalizer_count := it.finalizer_count + 1 } := by
  unfold RegisterArrayBufferImpl
  cases mode <;> simp [hp, hfind, hab, InstanceData.store, InstanceData.AddFinalizer]

theorem unregister_of_entry (data : InstanceData) (p : Nat) (it : ArrayBufferEntry)
    (hfind : data.pointer_to_orig_buffer p = some it) (hn : 1 ≤ it.finalizer_count) :
    UnregisterArrayBuffer data p
      = .ok (if it.finalizer_count = 1 then data.erase p
             else data.store p { it with finalizer_count := it.finalizer_count - 1 }) := by
  unfold UnregisterArrayBuffer
  have h0 : it.finalizer_count ≠ 0 := by omega
  by_cases h1 : it.finalizer_count = 1
  · simp [hfind, h1]
  · have h2 : ¬ (it.finalizer_count - 1 = 0) := by omega
    simp [hfind, h0, h1, h2]

theorem registerAfterCollect_entry (data : InstanceData) (buf : ArrayBuffer)
    (mode : ArrayBufferMode) (hp : buf.data ≠ 0) :
    (registerAfterCollect data buf mode).pointer_to_orig_buffer buf.data
      = some { ab := some buf, finalizer_count := data.count buf.data + 1 } := by
  unfold registerAfterCollect InstanceData.canonical InstanceData.count
  cases hf : data.pointer_to_orig_buffer buf.data with
  | none =>
    simp only
    exact register_on_absent data buf mode hp hf
  | some it =>
    cases hab : it.ab with
    | none =>
      simp only [hab]
      exact register_on_cleared data buf mode hp it hf hab
    | some ab =>
      simp only [hab]
      have hc : (data.collect ab.id).pointer_to_orig_buffer buf.data
          = some { ab := none, finalizer_count := it.finalizer_count } := by
        simp [InstanceData.collect, hf, hab]
      exact register_on_cleared (data.collect ab.id) buf mode hp
        { ab := none, finalizer_count := it.finalizer_count } hc rfl

theorem registerEach_count (p : Nat) (hp : p ≠ 0) (mode : ArrayBufferMode) :
    ∀ (bufs : List ArrayBuffer) (data : InstanceData), (∀ b ∈ bufs, b.data = p) → bufs ≠ [] →
      ∃ it, (registerEach data bufs mode).pointer_to_orig_buffer p = some it
        ∧ it.finalizer_count = data.count p + bufs.length := by
  intro bufs
  induction bufs with
  | nil => intro data _ hne; exact absurd rfl hne
  | cons b rest ih =>
    intro data hall _
    have hb : b.data = p := hall b (List.mem_cons_self _ _)
    have hstep := registerAfterCollect_entry data b mode (by rw [hb]; exact hp)
    rw [hb] at hstep
    cases rest with
    | nil =>
      exact ⟨_, hstep, by simp⟩
    | cons c rest2 =>
      obtain ⟨it, hit, hcount⟩ := ih (registerAfterCollect data b mode)
        (fun x hx => hall x (List.mem_cons_of_mem _ hx)) (by simp)
      refine ⟨it, hit, ?_⟩
      rw [hcount]
      simp only [InstanceData.count, hstep, List.length_cons]
      omega

theorem unregisterTimes_lt (p : Nat) :
    ∀ (k : Nat) (data : InstanceData) (it : ArrayBufferEntry),
      data.pointer_to_orig_buffer p = some it → k < it.finalizer_count →
      ∃ d, unregisterTimes k data p = .ok d
        ∧ d.pointer_to_orig_buffer p
            = some { ab := it.ab, finalizer_count := it.finalizer_count - k } := by
  intro k
  induction k with
  | zero => intro data it hf _; exact ⟨data, rfl, by simpa using hf⟩
  | succ k ih =>
    intro data it hf hk
    have hu := unregister_of_entry data p it hf (by omega)
    have h1 : it.finalizer_count ≠ 1 := by omega
    simp only [h1, if_false] at hu
    obtain ⟨d, hd, hentry⟩ := ih (data.store p { it with finalizer_count := it.finalizer_count - 1 })
      { it with finalizer_count := it.finalizer_count - 1 } (by simp [InstanceData.store])
      (by simp only; omega)
    refine ⟨d, ?_, ?_⟩
    · simp only [unregisterTimes, hu]
      exact hd
    · rw [hentry]
      simp only [Option.some.injEq, ArrayBufferEntry.mk.injEq, true_and]
      omega

theorem unregisterTimes_all (p : Nat) (data : InstanceData) (it : ArrayBufferEntry)
    (hf : data.pointer_to_orig_buffer p = some it) (hn : 1 ≤ it.finalizer_count) :
    ∃ d, unregisterTimes it.finalizer_count data p = .ok d
      ∧ d.pointer_to_orig_buffer p = none := by
  obtain ⟨d, hd, hentry⟩ := unregisterTimes_lt p (it.finalizer_count - 1) data it hf (by omega)
  have hlast := unregister_of_entry d p _ hentry (by simp only; omega)
  have h1 : it.finalizer_count - (it.finalizer_count - 1) = 1 := by omega
  simp only [h1, if_true] at hlast
  have hsplit : ∀ (k : Nat) (a b : InstanceData), unregisterTimes k a p = .ok b →
      unregisterTimes (k + 1) a p = UnregisterArrayBuffer b p := by
    intro k
    induction k with
    | zero =>
      intro a b hab
      simp only [unregisterTimes] at hab
      injection hab with hab
      subst hab
      simp only [unregisterTimes]
      cases UnregisterArrayBuffer a p <;> rfl
    | succ k ihk =>
      intro a b hab
      simp only [unregisterTimes] at hab
      cases hua : UnregisterArrayBuffer a p with
      | error f => simp [hua] at hab
      | ok a2 =>
        simp only [hua] at hab
        have := ihk a2 b hab
        rw [← this]
        conv_lhs => rw [unregisterTimes]
        simp only [hua]
  have hfull := hsplit (it.finalizer_count - 1) data d hd
  have hidx : it.finalizer_count - 1 + 1 = it.finalizer_count := by omega
  rw [hidx, hlast] at hfull
  exact ⟨_, hfull, by simp [InstanceData.erase]⟩

/-! ## Lemmas on the pointer primitives -/

theorem ptrAdd_lt (p : Nat) (offset : Int) : ptrAdd p offset < 2 ^ 64 := by
  unfold ptrAdd
  have h1 : ((p : Int) + offset) % 2 ^ 64 < 2 ^ 64 := Int.emod_lt_of_pos _ (by norm_num)
  have h2 : 0 ≤ ((p : Int) + offset) % 2 ^ 64 := Int.emod_nonneg _ (by norm_num)
  norm_num at h1 h2 ⊢
  omega

theorem addressForArgs_buffer (data : InstanceData) (buf : Buffer) (rest : List Value)
    (i : Nat) :
    AddressForArgs data (.buffer buf :: rest) i
      = match (arg (.buffer buf :: rest) i).ToNumber data.env with
        | .error e => (.error e, data)
        | .ok n =>
          (.ok (ptrAdd buf.Data (Int64Value n)),
           RegisterArrayBufferImpl data buf.ab .AB_PASSED_TO_REF) := by
  have h0 : arg (.buffer buf :: rest) 0 = .buffer buf := rfl
  simp only [AddressForArgs, h0]
  rfl

theorem addressForArgs_converted (data : InstanceData) (buf : Buffer) (rest : List Value)
    (i : Nat) (n : Option Int)
    (hn : (arg (.buffer buf :: rest) i).ToNumber data.env = .ok n) :
    AddressForArgs data (.buffer buf :: rest) i
      = (.ok (ptrAdd buf.Data (Int64Value n)),
         RegisterArrayBufferImpl data buf.ab .AB_PASSED_TO_REF) := by
  rw [addressForArgs_buffer, hn]

theorem addressForArgs_throws (data : InstanceData) (buf : Buffer) (rest : List Value)
    (i : Nat) (e : Exception)
    (he : (arg (.buffer buf :: rest) i).ToNumber data.env = .error e) :
    AddressForArgs data (.buffer buf :: rest) i = (.error e, data) := by
  rw [addressForArgs_buffer, he]

theorem register_objectToNumber (data : InstanceData) (buf : ArrayBuffer)
    (mode : ArrayBufferMode) :
    (RegisterArrayBufferImpl data buf mode).env.objectToNumber = data.env.objectToNumber := by
  unfold RegisterArrayBufferImpl
  by_cases h0 : buf.data = 0
  · simp [h0]
  · cases hf : data.pointer_to_orig_buffer buf.data with
    | none => cases mode <;> simp [h0, hf, InstanceData.store, InstanceData.AddFinalizer]
    | some it =>
      cases hab : it.ab <;> cases mode <;>
        simp [h0, hf, hab, InstanceData.store, InstanceData.AddFinalizer]

theorem register_memory (data : InstanceData) (buf : ArrayBuffer) (mode : ArrayBufferMode) :
    (RegisterArrayBufferImpl data buf mode).env.memory = data.env.memory := by
  unfold RegisterArrayBufferImpl
  by_cases h0 : buf.data = 0
  · simp [h0]
  · cases hf : data.pointer_to_orig_buffer buf.data with
    | none => cases mode <;> simp [h0, hf, InstanceData.store, InstanceData.AddFinalizer]
    | some it =>
      cases hab : it.ab <;> cases mode <;>
        simp [h0, hf, hab, InstanceData.store, InstanceData.AddFinalizer]

theorem register_keyed (data : InstanceData) (buf : ArrayBuffer) (mode : ArrayBufferMode)
    (hk : data.RegistryKeyed) : (RegisterArrayBufferImpl data buf mode).RegistryKeyed := by
  have hstore : ∀ e : ArrayBufferEntry, e.ab = some buf →
      (data.store buf.data e).RegistryKeyed := by
    intro e he p it ab hfind hab
    by_cases hp : p = buf.data
    · simp [InstanceData.store, hp] at hfind
      subst hfind
      rw [he] at hab
      injection hab with hab
      subst hab
      exact hp.symm
    · simp [InstanceData.store, hp] at hfind
      exact hk p it ab hfind hab
  unfold RegisterArrayBufferImpl
  by_cases h0 : buf.data = 0
  · simpa [h0] using hk
  · cases hf : data.pointer_to_orig_buffer buf.data with
    | none =>
      have := hstore { ab := some buf, finalizer_count := 1 } rfl
      cases mode <;> simpa [h0, hf, InstanceData.AddFinalizer, InstanceData.RegistryKeyed] using this
    | some it =>
      cases hab : it.ab with
      | some ab => simpa [h0, hf, hab] using hk
      | none =>
        have := hstore { ab := some buf, finalizer_count := it.finalizer_count + 1 } rfl
        cases mode <;>
          simpa [h0, hf, hab, InstanceData.AddFinalizer, InstanceData.RegistryKeyed] using this

theorem unregister_keyed (data d : InstanceData) (ptr : Nat) (hk : data.RegistryKeyed)
    (hu : UnregisterArrayBuffer data ptr = .ok d) : d.RegistryKeyed := by
  intro p it ab hfind hab
  unfold UnregisterArrayBuffer at hu
  cases hf : data.pointer_to_orig_buffer ptr with
  | none => simp [hf] at hu
  | some e =>
    simp only [hf] at hu
    split at hu
    · simp at hu
    · split at hu
      · injection hu with hu
        subst hu
        by_cases hp : p = ptr
        · simp [InstanceData.erase, hp] at hfind
        · simp [InstanceData.erase, hp] at hfind
          exact hk p it ab hfind hab
      · injection hu with hu
        subst hu
        by_cases hp : p = ptr
        · simp [InstanceData.store, hp] at hfind
          subst hfind
          exact hp ▸ hk ptr e ab hf hab
        · simp [InstanceData.store, hp] at hfind
          exact hk p it ab hfind hab

theorem collect_keyed (data : InstanceData) (id : Nat) (hk : data.RegistryKeyed) :
    (data.collect id).RegistryKeyed := by
  intro p it ab hfind hab
  cases hf : data.pointer_to_orig_buffer p with
  | none => simp [InstanceData.collect, hf] at hfind
  | some e =>
    simp only [InstanceData.collect, hf, Option.some.injEq] at hfind
    split at hfind
    · subst hfind
      simp at hab
    · subst hfind
      exact hk p e ab hf hab

theorem lookupOrCreate_keyed (data : InstanceData) (ptr length : Nat) (h : ptr ≠ 0)
    (hk : data.RegistryKeyed) : (LookupOrCreateArrayBuffer data ptr length h).2.RegistryKeyed := by
  cases hc : data.canonical ptr with
  | some ab =>
    rw [lookupOrCreate_hit data ptr length h ab hc]
    exact hk
  | none =>
    unfold InstanceData.canonical at hc
    unfold LookupOrCreateArrayBuffer
    simp only [hc]
    apply register_keyed
    exact hk

theorem wrapPointer_keyed (data : InstanceData) (ptr length : Nat) (hk : data.RegistryKeyed) :
    (WrapPointer data ptr length).2.RegistryKeyed := by
  unfold WrapPointer
  by_cases h : ptr = 0
  · subst h
    simpa [InstanceData.WrapPointer, Buffer.New, InstanceData.RegistryKeyed] using hk
  · rw [wrapPointer_nonnull data ptr length h]
    exact lookupOrCreate_keyed data ptr length h hk

theorem wrapPointer_null (data : InstanceData) (length : Nat) :
    (WrapPointer data 0 length).1.Data = 0 ∧ (WrapPointer data 0 length).1.length = 0 := by
  simp [WrapPointer, InstanceData.WrapPointer, Buffer.New, Buffer.Data]

/-! ## Lemmas on the scans -/

theorem loadElement_eq_zero_iff (memory : Nat → Nat) :
    ∀ (sizeofT addr : Nat),
      loadElement memory addr sizeofT = 0 ↔ ∀ i, i < sizeofT → memory (addr + i) % 256 = 0 := by
  intro sizeofT
  induction sizeofT with
  | zero => intro addr; simp [loadElement]
  | succ n ih =>
    intro addr
    simp only [loadElement, Nat.add_eq_zero_iff, Nat.mul_eq_zero, OfNat.ofNat_ne_zero,
      false_or, ih]
    constructor
    · rintro ⟨h0, hrest⟩ i hi
      cases i with
      | zero => simpa using h0
      | succ j =>
        have := hrest j (by omega)
        rwa [Nat.add_assoc, Nat.add_comm 1 j] at this
    · intro h
      refine ⟨by simpa using h 0 (by omega), ?_⟩
      intro j hj
      have := h (j + 1) (by omega)
      rwa [Nat.add_assoc, Nat.add_comm 1 j]

theorem scanUntilZeros_step (memory : Nat → Nat) (ptr sizeofT : Nat) (hT : 0 < sizeofT)
    (size : Nat) :
    scanUntilZeros memory ptr sizeofT hT size
      = if size < kMaxLength then
          if loadElement memory (ptr + size) sizeofT = 0 then size
          else scanUntilZeros memory ptr sizeofT hT (size + sizeofT)
        else size := by
  rw [scanUntilZeros]
  split <;> rfl

theorem scanUntilZeros_stops (memory : Nat → Nat) (ptr sizeofT : Nat) (hT : 0 < sizeofT) :
    ∀ (n size : Nat),
      (∀ i, i < n → loadElement memory (ptr + (size + i * sizeofT)) sizeofT ≠ 0) →
      size + n * sizeofT < kMaxLength →
      loadElement memory (ptr + (size + n * sizeofT)) sizeofT = 0 →
      scanUntilZeros memory ptr sizeofT hT size = size + n * sizeofT := by
  intro n
  induction n with
  | zero =>
    intro size _ hlt hzero
    rw [scanUntilZeros_step]
    simp only [Nat.zero_mul, Nat.add_zero] at hlt hzero ⊢
    simp [hlt, hzero]
  | succ n ih =>
    intro size hnz hlt hzero
    have hstep : size + sizeofT + n * sizeofT = size + (n + 1) * sizeofT := by
      rw [Nat.add_mul]; omega
    have hsize : size < kMaxLength := by
      have : size ≤ size + (n + 1) * sizeofT := Nat.le_add_right _ _
      omega
    have h0 : loadElement memory (ptr + size) sizeofT ≠ 0 := by
      simpa using hnz 0 (by omega)
    rw [scanUntilZeros_step]
    simp only [hsize, if_true, h0, if_false]
    rw [ih (size + sizeofT) ?_ (by rw [hstep]; exact hlt) (by rw [hstep]; exact hzero), hstep]
    intro i hi
    have := hnz (i + 1) (by omega)
    have he : size + sizeofT + i * sizeofT = size + (i + 1) * sizeofT := by
      rw [Nat.add_mul]; omega
    rwa [he]

theorem scanUntilZeros_runs_out (memory : Nat → Nat) (ptr sizeofT : Nat) (hT : 0 < sizeofT) :
    ∀ (n size : Nat),
      (∀ i, i < n → size + i * sizeofT < kMaxLength
        ∧ loadElement memory (ptr + (size + i * sizeofT)) sizeofT ≠ 0) →
      kMaxLength ≤ size + n * sizeofT →
      scanUntilZeros memory ptr sizeofT hT size = size + n * sizeofT := by
  intro n
  induction n with
  | zero =>
    intro size _ hge
    rw [scanUntilZeros_step]
    simp only [Nat.zero_mul, Nat.add_zero] at hge ⊢
    simp [Nat.not_lt.mpr hge]
  | succ n ih =>
    intro size hnz hge
    have hstep : size + sizeofT + n * sizeofT = size + (n + 1) * sizeofT := by
      rw [Nat.add_mul]; omega
    have h0 := hnz 0 (by omega)
    simp only [Nat.zero_mul, Nat.add_zero] at h0
    rw [scanUntilZeros_step]
    simp only [h0.1, if_true, h0.2, if_false]
    rw [ih (size + sizeofT) ?_ (by rw [hstep]; exact hge), hstep]
    intro i hi
    have := hnz (i + 1) (by omega)
    have he : size + sizeofT + i * sizeofT = size + (i + 1) * sizeofT := by
      rw [Nat.add_mul]; omega
    rwa [he]

theorem strlenFrom_first_zero (memory : Nat → Nat) (ptr k : Nat)
    (hzero : memory (ptr + k) % 256 = 0) :
    ∀ (fuel n : Nat), n ≤ k → k - n < fuel →
      (∀ j, n ≤ j → j < k → memory (ptr + j) % 256 ≠ 0) →
      strlenFrom memory ptr fuel n = some k := by
  intro fuel
  induction fuel with
  | zero => intro n _ hf; omega
  | succ fuel ih =>
    intro n hn hf hnz
    by_cases hnk : n = k
    · subst hnk
      simp [strlenFrom, hzero]
    · have h0 := hnz n (Nat.le_refl _) (by omega)
      simp only [strlenFrom, h0, if_false]
      exact ih (n + 1) (by omega) (by omega) (fun j hj hjk => hnz j (by omega) hjk)

theorem strlenFrom_terminates (memory : Nat → Nat) (ptr k : Nat)
    (hzero : memory (ptr + k) % 256 = 0) :
    ∀ (fuel n : Nat), n ≤ k → k - n < fuel → ∃ m, strlenFrom memory ptr fuel n = some m := by
  intro fuel
  induction fuel with
  | zero => intro n _ hf; omega
  | succ fuel ih =>
    intro n hn hf
    by_cases h0 : memory (ptr + n) % 256 = 0
    · exact ⟨n, by simp [strlenFrom, h0]⟩
    · have hnk : n ≠ k := by
        intro h
        subst h
        exact h0 hzero
      simp only [strlenFrom, h0, if_false]
      exact ih (n + 1) (by omega) (by omega)

theorem wrapPointer_length (data : InstanceData) (ptr length : Nat) (h : ptr ≠ 0) :
    (WrapPointer data ptr length).1.length = length := by
  unfold WrapPointer
  rw [wrapPointer_nonnull data ptr length h]
  rfl

theorem reinterpretUntilZerosOfWidth_template (w fuel : Nat) (data : InstanceData)
    (args : List Value) (hT : 0 < w) (hw : w = 2 ∨ w = 4 ∨ w = 8) :
    reinterpretUntilZerosOfWidth w fuel data args
      = some (ReinterpretBufferUntilZeros w hT data args) := by
  rcases hw with h | h | h <;> subst h <;> rfl

/-! ## Lemmas on counts and pending callbacks -/

theorem counted_bump (d d2 : InstanceData) (p id : Nat) (e : ArrayBufferEntry)
    (hreg : d2.pointer_to_orig_buffer
      = fun q => if q = p then some e else d.pointer_to_orig_buffer q)
    (hfin : d2.env.finalizers = (id, Finalizer.unregister p) :: d.env.finalizers)
    (he : e.finalizer_count = d.count p + 1) (hc : d.Counted) : d2.Counted := by
  intro q
  by_cases hq : q = p
  · subst hq
    refine ⟨?_, ?_⟩
    · simp only [InstanceData.count, InstanceData.pending, hreg, hfin, if_true,
        List.countP_cons, decide_True]
      rw [he]
      have := (hc q).1
      simp only [InstanceData.pending] at this
      simp [this]
    · intro it hit
      simp only [hreg, if_true, Option.some.injEq] at hit
      subst hit
      omega
  · have hne : ¬ (Finalizer.unregister p = Finalizer.unregister q) := by
      intro h
      injection h with h
      exact hq h.symm
    refine ⟨?_, ?_⟩
    · have := (hc q).1
      simp only [InstanceData.count, InstanceData.pending] at this ⊢
      simp only [hreg, hfin, hq, if_false, List.countP_cons, hne, decide_False]
      simpa using this
    · intro it hit
      simp only [hreg, hq, if_false] at hit
      exact (hc q).2 it hit

theorem counted_same (d d2 : InstanceData)
    (hcount : ∀ q, d2.count q = d.count q)
    (hentry : ∀ q it, d2.pointer_to_orig_buffer q = some it →
      ∃ it0, d.pointer_to_orig_buffer q = some it0 ∧ it0.finalizer_count = it.finalizer_count)
    (hpend : ∀ q, d2.pending q = d.pending q) (hc : d.Counted) : d2.Counted := by
  intro q
  refine ⟨by rw [hcount, hpend]; exact (hc q).1, ?_⟩
  intro it hit
  obtain ⟨it0, h0, heq⟩ := hentry q it hit
  rw [← heq]
  exact (hc q).2 it0 h0

theorem register_passed_counted (data : InstanceData) (buf : ArrayBuffer) (hc : data.Counted) :
    (RegisterArrayBufferImpl data buf .AB_PASSED_TO_REF).Counted := by
  unfold RegisterArrayBufferImpl
  by_cases h0 : buf.data = 0
  · simpa [h0] using hc
  · cases hf : data.pointer_to_orig_buffer buf.data with
    | none =>
      simp only [h0, if_false, hf]
      apply counted_bump data _ buf.data buf.id { ab := some buf, finalizer_count := 1 } _ _ _ hc
      · simp [InstanceData.AddFinalizer, InstanceData.store]
      · simp [InstanceData.AddFinalizer, InstanceData.store]
      · simp [InstanceData.count, hf]
    | some it =>
      cases hab : it.ab with
      | some ab => simpa [h0, hf, hab] using hc
      | none =>
        simp only [h0, if_false, hf, hab]
        apply counted_bump data _ buf.data buf.id
          { ab := some buf, finalizer_count := it.finalizer_count + 1 } _ _ _ hc
        · simp [InstanceData.AddFinalizer, InstanceData.store]
        · simp [InstanceData.AddFinalizer, InstanceData.store]
        · simp [InstanceData.count, hf]

theorem lookupOrCreate_counted (data : InstanceData) (ptr length : Nat) (h : ptr ≠ 0)
    (hc : data.Counted) : (LookupOrCreateArrayBuffer data ptr length h).2.Counted := by
  cases hcan : data.canonical ptr with
  | some ab =>
    rw [lookupOrCreate_hit data ptr length h ab hcan]
    exact hc
  | none =>
    unfold InstanceData.canonical at hcan
    unfold LookupOrCreateArrayBuffer
    simp only [hcan]
    cases hf : data.pointer_to_orig_buffer ptr with
    | none =>
      apply counted_bump data _ ptr data.env.nextId
        { ab := some { id := data.env.nextId, data := ptr, byteLength := max length kMaxLength },
          finalizer_count := 1 } _ _ _ hc
      · simp [RegisterArrayBufferImpl, Buffer.New, InstanceData.store, h, hf]
      · simp [RegisterArrayBufferImpl, Buffer.New, InstanceData.store, h, hf]
      · simp [InstanceData.count, hf]
    | some it =>
      have hab : it.ab = none := by simpa [hf] using hcan
      apply counted_bump data _ ptr data.env.nextId
        { ab := some { id := data.env.nextId, data := ptr, byteLength := max length kMaxLength },
          finalizer_count := it.finalizer_count + 1 } _ _ _ hc
      · simp [RegisterArrayBufferImpl, Buffer.New, InstanceData.store, h, hf, hab]
      · simp [RegisterArrayBufferImpl, Buffer.New, InstanceData.store, h, hf, hab]
      · simp [InstanceData.count, hf]

theorem collect_counted (data : InstanceData) (id : Nat) (hc : data.Counted) :
    (data.collect id).Counted := by
  apply counted_same data _ _ _ _ hc
  · intro q
    simp only [InstanceData.count, InstanceData.collect]
    cases hf : data.pointer_to_orig_buffer q with
    | none => rfl
    | some it => simp only; split <;> rfl
  · intro q it hit
    simp only [InstanceData.collect] at hit
    cases hf : data.pointer_to_orig_buffer q with
    | none => simp [hf] at hit
    | some it0 =>
      simp only [hf, Option.some.injEq] at hit
      refine ⟨it0, rfl, ?_⟩
      subst hit
      split <;> rfl
  · intro q
    rfl

theorem countP_erase_of_mem {α : Type} [BEq α] [LawfulBEq α] (P : α → Bool) :
    ∀ (l : List α) (x : α), x ∈ l →
      (l.erase x).countP P + (if P x then 1 else 0) = l.countP P := by
  intro l
  induction l with
  | nil => intro x hx; simp at hx
  | cons a l ih =>
    intro x hx
    by_cases hax : a = x
    · subst hax
      simp only [List.erase_cons_head, List.countP_cons]
    · have hmem : x ∈ l := by
        rcases List.mem_cons.mp hx with h | h
        · exact absurd h.symm hax
        · exact h
      have hbeq : (a == x) = false := beq_eq_false_iff_ne.mpr hax
      have := ih x hmem
      rw [List.erase_cons, hbeq]
      simp only [Bool.false_eq_true, if_false, List.countP_cons]
      omega

theorem deliver_counted (data d2 : InstanceData) (id : Nat) (f : Finalizer)
    (hmem : (id, f) ∈ data.env.finalizers) (hd : data.deliver id f = .ok d2)
    (hc : data.Counted) : d2.Counted := by
  have herase : ∀ q,
      (data.env.finalizers.erase (id, f)).countP (fun g => g.2 = Finalizer.unregister q)
        + (if f = Finalizer.unregister q then 1 else 0) = data.pending q := by
    intro q
    have := countP_erase_of_mem (fun g : Nat × Finalizer => decide (g.2 = Finalizer.unregister q))
      data.env.finalizers (id, f) hmem
    simpa [InstanceData.pending] using this
  cases f with
  | noop =>
    simp only [InstanceData.deliver] at hd
    injection hd with hd
    subst hd
    refine counted_same data _ ?_ ?_ ?_ hc
    · intro q
      rfl
    · intro q it hit
      exact ⟨it, hit, rfl⟩
    · intro q
      have := herase q
      simpa [InstanceData.pending] using this
  | deleteRef t =>
    simp only [InstanceData.deliver] at hd
    injection hd with hd
    subst hd
    refine counted_same data _ ?_ ?_ ?_ hc
    · intro q
      rfl
    · intro q it hit
      exact ⟨it, hit, rfl⟩
    · intro q
      have := herase q
      simpa [InstanceData.pending] using this
  | unregister p =>
    simp only [InstanceData.deliver] at hd
    have hp := herase p
    simp only [if_true] at hp
    have hpos : 1 ≤ data.pending p := by omega
    have hcp := (hc p).1
    cases hf : data.pointer_to_orig_buffer p with
    | none =>
      simp [InstanceData.count, hf] at hcp
      omega
    | some it =>
      have hit : it.finalizer_count = data.pending p := by
        simpa [InstanceData.count, hf] using hcp
      have hu := unregister_of_entry
        { data with env := { data.env with finalizers := data.env.finalizers.erase (id, .unregister p) } }
        p it hf (by omega)
      rw [hu] at hd
      injection hd with hd
      subst hd
      intro q
      have hq := herase q
      by_cases hqp : q = p
      · subst hqp
        simp only [if_true] at hq
        by_cases h1 : it.finalizer_count = 1
        · simp only [h1, if_true, InstanceData.count, InstanceData.pending, InstanceData.erase]
          refine ⟨?_, by simp⟩
          omega
        · simp only [h1, if_false, InstanceData.count, InstanceData.pending, InstanceData.store,
            if_true]
          refine ⟨by omega, ?_⟩
          intro e he
          simp only [Option.some.injEq] at he
          subst he
          simp only
          omega
      · have hne : ¬ (Finalizer.unregister p = Finalizer.unregister q) := by
          intro h
          injection h with h
          exact hqp h.symm
        simp only [hne, if_false, Nat.add_zero] at hq
        have hcq := hc q
        by_cases h1 : it.finalizer_count = 1
        · simp only [h1, if_true, InstanceData.count, InstanceData.pending, InstanceData.erase,
            hqp, if_false]
          refine ⟨?_, hcq.2⟩
          rw [hq]
          exact hcq.1
        · simp only [h1, if_false, InstanceData.count, InstanceData.pending, InstanceData.store,
            hqp]
          refine ⟨?_, hcq.2⟩
          rw [hq]
          exact hcq.1

theorem reachable_counted (hostMax : Nat) (d : InstanceData) (h : Reachable hostMax d) :
    d.Counted := by
  induction h with
  | empty d hreg hpend =>
    intro p
    refine ⟨by simp [InstanceData.count, hreg p, hpend p], ?_⟩
    intro it hit
    simp [hreg p] at hit
  | register d buf _ ih => exact register_passed_counted d buf ih
  | lookupOrCreate d ptr length hp _ _ ih => exact lookupOrCreate_counted d ptr length hp ih
  | collect d id _ ih => exact collect_counted d id ih
  | deliver d id f d2 _ hmem hd ih => exact deliver_counted d d2 id f hmem hd ih

theorem lookupOrCreateHost_accepted (hostMax : Nat) (data : InstanceData) (ptr length : Nat)
    (h : ptr ≠ 0)
    (hacc : (data.canonical ptr).isSome = true ∨ max length kMaxLength ≤ hostMax) :
    LookupOrCreateArrayBufferHost hostMax data ptr length h
      = .ok (LookupOrCreateArrayBuffer data ptr length h).1
          (LookupOrCreateArrayBuffer data ptr length h).2 := by
  cases hc : data.canonical ptr with
  | some ab =>
    rw [lookupOrCreate_hit data ptr length h ab hc]
    unfold InstanceData.canonical at hc
    unfold LookupOrCreateArrayBufferHost
    simp only [hc]
  | none =>
    have hle : max length kMaxLength ≤ hostMax := by
      rcases hacc with hv | hle
      · simp [hc] at hv
      · exact hle
    unfold InstanceData.canonical at hc
    unfold LookupOrCreateArrayBufferHost LookupOrCreateArrayBuffer Buffer.NewHost
    simp only [hc, hle, if_true]

/-! ## Lemmas on what the calls keep -/

theorem preserves_refl (p : Nat) (d : InstanceData) : d.Preserves p d :=
  ⟨fun _ hx => hx, fun _ => rfl⟩

theorem preserves_trans (p : Nat) (d d1 d2 : InstanceData) (h1 : d.Preserves p d1)
    (h2 : d1.Preserves p d2) : d.Preserves p d2 := by
  refine ⟨fun x hx => h2.1 x (h1.1 x hx), ?_⟩
  intro hv
  have e1 := h1.2 hv
  have hv1 : (d1.canonical p).isSome = true := by
    simpa [InstanceData.canonical, e1] using hv
  rw [h2.2 hv1, e1]

theorem register_preserves (p : Nat) (data : InstanceData) (buf : ArrayBuffer)
    (mode : ArrayBufferMode) : data.Preserves p (RegisterArrayBufferImpl data buf mode) := by
  unfold RegisterArrayBufferImpl
  by_cases h0 : buf.data = 0
  · simpa [h0] using preserves_refl p data
  · cases hf : data.pointer_to_orig_buffer buf.data with
    | none =>
      refine ⟨?_, ?_⟩
      · intro x hx
        cases mode <;> simp [h0, hf, InstanceData.store, InstanceData.AddFinalizer, hx]
      · intro hv
        have hne : p ≠ buf.data := by
          intro h
          subst h
          simp [InstanceData.canonical, hf] at hv
        cases mode <;> simp [h0, hf, InstanceData.store, InstanceData.AddFinalizer, hne]
    | some it =>
      cases hab : it.ab with
      | some ab => simpa [h0, hf, hab] using preserves_refl p data
      | none =>
        refine ⟨?_, ?_⟩
        · intro x hx
          cases mode <;> simp [h0, hf, hab, InstanceData.store, InstanceData.AddFinalizer, hx]
        · intro hv
          have hne : p ≠ buf.data := by
            intro h
            subst h
            simp [InstanceData.canonical, hf, hab] at hv
          cases mode <;> simp [h0, hf, hab, InstanceData.store, InstanceData.AddFinalizer, hne]

theorem lookupOrCreate_preserves (p : Nat) (data : InstanceData) (ptr length : Nat)
    (h : ptr ≠ 0) : data.Preserves p (LookupOrCreateArrayBuffer data ptr length h).2 := by
  cases hcan : data.canonical ptr with
  | some ab =>
    rw [lookupOrCreate_hit data ptr length h ab hcan]
    exact preserves_refl p data
  | none =>
    unfold InstanceData.canonical at hcan
    unfold LookupOrCreateArrayBuffer
    simp only [hcan]
    refine preserves_trans p data (Buffer.New data ptr (max length kMaxLength) (.unregister ptr)).2
      _ ?_ (register_preserves p _ _ _)
    refine ⟨?_, fun _ => rfl⟩
    intro x hx
    simp [Buffer.New, hx]

theorem wrapPointer_preserves (p : Nat) (data : InstanceData) (ptr length : Nat) :
    data.Preserves p (WrapPointer data ptr length).2 := by
  unfold WrapPointer
  by_cases h : ptr = 0
  · subst h
    refine ⟨?_, fun _ => rfl⟩
    intro x hx
    simp [InstanceData.WrapPointer, Buffer.New, hx]
  · rw [wrapPointer_nonnull data ptr length h]
    exact preserves_trans p data _ _ (lookupOrCreate_preserves p data ptr _ h)
      ⟨fun _ hx => hx, fun _ => rfl⟩

theorem addressForArgs_preserves (p : Nat) (data : InstanceData) (args : List Value) (i : Nat) :
    data.Preserves p (AddressForArgs data args i).2 := by
  unfold AddressForArgs
  cases arg args 0 with
  | buffer buf =>
    simp only
    cases (arg args i).ToNumber data.env with
    | error e => exact preserves_refl p data
    | ok number => exact register_preserves p data buf.ab _
  | _ => exact preserves_refl p data

theorem address_after (p : Nat) (data : InstanceData) (args : List Value) :
    (AddressForArgs data args 1).2.Preserves p (Address data args).2 := by
  unfold Address
  cases h : AddressForArgs data args 1 with
  | mk r d => cases r <;> exact preserves_refl p d

theorem readPointer_after (p : Nat) (data : InstanceData) (args : List Value) :
    (AddressForArgs data args 1).2.Preserves p (ReadPointer data args).2 := by
  unfold ReadPointer
  cases h : AddressForArgs data args 1 with
  | mk r d =>
    cases r with
    | error e => exact preserves_refl p d
    | ok ptr =>
      simp only
      split
      · exact preserves_refl p d
      · cases (arg args 2).ToNumber d.env with
        | error e => exact preserves_refl p d
        | ok number => exact wrapPointer_preserves p d _ _

theorem reinterpret_after (p : Nat) (data : InstanceData) (args : List Value) :
    (AddressForArgs data args 2).2.Preserves p (ReinterpretBuffer data args).2 := by
  unfold ReinterpretBuffer
  cases h : AddressForArgs data args 2 with
  | mk r d =>
    cases r with
    | error e => exact preserves_refl p d
    | ok ptr =>
      simp only
      split
      · exact preserves_refl p d
      · cases (arg args 1).ToNumber d.env with
        | error e => exact preserves_refl p d
        | ok number => exact wrapPointer_preserves p d _ _

theorem reinterpretUntilZeros_after (p w : Nat) (hT : 0 < w) (data : InstanceData)
    (args : List Value) :
    (AddressForArgs data args 1).2.Preserves p (ReinterpretBufferUntilZeros w hT data args).2 := by
  unfold ReinterpretBufferUntilZeros
  cases h : AddressForArgs data args 1 with
  | mk r d =>
    cases r with
    | error e => exact preserves_refl p d
    | ok ptr =>
      simp only
      split
      · exact preserves_refl p d
      · exact wrapPointer_preserves p d _ _

theorem reinterpretUntilZeros8_after (p fuel : Nat) (data : InstanceData) (args : List Value)
    (r : Except Exception Buffer × InstanceData)
    (hr : _reinterpretUntilZeros8 fuel data args = some r) :
    (AddressForArgs data args 1).2.Preserves p r.2 := by
  unfold _reinterpretUntilZeros8 at hr
  cases h : AddressForArgs data args 1 with
  | mk res d =>
    rw [h] at hr
    cases res with
    | error e =>
      simp only [Option.some.injEq] at hr
      subst hr
      exact preserves_refl p d
    | ok ptr =>
      simp only at hr
      split at hr
      · simp only [Option.some.injEq] at hr
        subst hr
        exact preserves_refl p d
      · split at hr
        · simp at hr
        · simp only [Option.some.injEq] at hr
          subst hr
          exact wrapPointer_preserves p d _ _

theorem reinterpretUntilZeros8_returns (fuel k : Nat) (data : InstanceData) (buf : Buffer)
    (rest : List Value) (n : Option Int)
    (hn : (arg (.buffer buf :: rest) 1).ToNumber data.env = .ok n)
    (hzero : ptrAdd buf.Data (Int64Value n) = 0
      ∨ (data.env.memory (ptrAdd buf.Data (Int64Value n) + k) % 256 = 0 ∧ k < fuel)) :
    ∃ r, _reinterpretUntilZeros8 fuel data (.buffer buf :: rest) = some r := by
  unfold _reinterpretUntilZeros8
  rw [addressForArgs_converted data buf rest 1 n hn]
  by_cases hp : ptrAdd buf.Data (Int64Value n) = 0
  · simp [hp]
  · rcases hzero with h | ⟨hz, hk⟩
    · exact absurd h hp
    · obtain ⟨m, hm⟩ := strlenFrom_terminates data.env.memory
        (ptrAdd buf.Data (Int64Value n)) k hz fuel 0 (Nat.zero_le _) (by omega)
      simp only [hp, if_false, register_memory, strlen, hm]
      exact ⟨_, rfl⟩

theorem readObject_after (p : Nat) (data : InstanceData) (refs : References)
    (args : List Value) :
    (AddressForArgs data args 1).2.Preserves p (ReadObject data refs args).2 := by
  unfold ReadObject
  cases h : AddressForArgs data args 1 with
  | mk r d =>
    cases r with
    | error e => exact preserves_refl p d
    | ok ptr =>
      simp only
      split <;> exact preserves_refl p d

theorem writeObject_after (p : Nat) (data : InstanceData) (refs : References)
    (args : List Value) :
    (AddressForArgs data args 2).2.Preserves p (WriteObject data refs args).2.1 := by
  unfold WriteObject
  cases h : AddressForArgs data args 2 with
  | mk r d =>
    cases r with
    | error e => exact preserves_refl p d
    | ok ptr =>
      simp only
      split
      · exact preserves_refl p d
      · split
        · exact preserves_refl p d
        · split <;> exact preserves_refl p d

theorem addFinalizer_preserves (p : Nat) (d : InstanceData) (id : Nat) (f : Finalizer) :
    d.Preserves p (d.AddFinalizer id f) :=
  ⟨fun x hx => by simp [InstanceData.AddFinalizer, hx], fun _ => rfl⟩

theorem poke_preserves (p : Nat) (d : InstanceData) (ptr val : Nat) :
    d.Preserves p (d.poke ptr val) :=
  ⟨fun _ hx => hx, fun _ => rfl⟩

theorem writePointer_after (p : Nat) (data : InstanceData) (args : List Value) :
    (AddressForArgs data args 2).2.Preserves p (WritePointer data args).2 := by
  unfold WritePointer
  cases h : AddressForArgs data args 2 with
  | mk r d =>
    cases r with
    | error e => exact preserves_refl p d
    | ok ptr =>
      simp only
      cases h1 : arg args 1 with
      | null => exact poke_preserves p d _ _
      | buffer input =>
        simp only
        by_cases hlen : args.length = 4
        · simp only [hlen, if_true]
          cases h3 : arg args 3 with
          | boolean pin =>
            cases h0 : arg args 0 with
            | buffer target =>
              cases pin with
              | true =>
                simp only [GetBufferData, InstanceData.GetBufferData,
                  InstanceData.RegisterArrayBuffer]
                exact preserves_trans p _ _ _ (addFinalizer_preserves p d _ _)
                  (preserves_trans p _ _ _ (register_preserves p _ _ _) (poke_preserves p _ _ _))
              | false =>
                simp only [GetBufferData, InstanceData.GetBufferData,
                  InstanceData.RegisterArrayBuffer]
                exact preserves_trans p _ _ _ (register_preserves p _ _ _)
                  (poke_preserves p _ _ _)
            | _ =>
              simp only [GetBufferData, InstanceData.GetBufferData,
                InstanceData.RegisterArrayBuffer]
              exact preserves_trans p _ _ _ (register_preserves p _ _ _)
                (poke_preserves p _ _ _)
          | _ => exact preserves_refl p d
        · simp only [hlen, if_false, GetBufferData, InstanceData.GetBufferData,
            InstanceData.RegisterArrayBuffer]
          exact preserves_trans p _ _ _ (register_preserves p _ _ _) (poke_preserves p _ _ _)
      | _ => exact preserves_refl p d

theorem unregister_env (data d : InstanceData) (ptr : Nat)
    (hu : UnregisterArrayBuffer data ptr = .ok d) : d.env = data.env := by
  unfold UnregisterArrayBuffer at hu
  cases hf : data.pointer_to_orig_buffer ptr with
  | none => simp [hf] at hu
  | some it =>
    simp only [hf] at hu
    split at hu
    · simp at hu
    · split at hu <;> (injection hu with hu; subst hu; rfl)

theorem deliver_keeps_other (data d2 : InstanceData) (id : Nat) (f : Finalizer)
    (hd : data.deliver id f = .ok d2) (x : Nat × Finalizer) (hx : x ∈ data.env.finalizers)
    (hne : x.1 ≠ id) : x ∈ d2.env.finalizers := by
  have hmem : x ∈ data.env.finalizers.erase (id, f) := by
    apply (List.mem_erase_of_ne _).mpr hx
    intro h
    exact hne (by rw [h])
  cases f with
  | noop =>
    simp only [InstanceData.deliver] at hd
    injection hd with hd
    subst hd
    exact hmem
  | deleteRef t =>
    simp only [InstanceData.deliver] at hd
    injection hd with hd
    subst hd
    exact hmem
  | unregister q =>
    simp only [InstanceData.deliver] at hd
    rw [unregister_env _ _ _ hd]
    exact hmem

theorem stepKeeping_keeps (owner : Nat) (d d2 : InstanceData) (h : StepKeeping owner d d2)
    (f : Finalizer) (hx : (owner, f) ∈ d.env.finalizers) : (owner, f) ∈ d2.env.finalizers := by
  cases h with
  | register _ buf => exact (register_preserves 0 d buf _).1 _ hx
  | wrapPointer _ ptr length => exact (wrapPointer_preserves 0 d ptr length).1 _ hx
  | address _ args =>
    exact (preserves_trans 0 _ _ _ (addressForArgs_preserves 0 d args 1)
      (address_after 0 d args)).1 _ hx
  | readPointer _ args =>
    exact (preserves_trans 0 _ _ _ (addressForArgs_preserves 0 d args 1)
      (readPointer_after 0 d args)).1 _ hx
  | writePointer _ args =>
    exact (preserves_trans 0 _ _ _ (addressForArgs_preserves 0 d args 2)
      (writePointer_after 0 d args)).1 _ hx
  | readObject _ refs args =>
    exact (preserves_trans 0 _ _ _ (addressForArgs_preserves 0 d args 1)
      (readObject_after 0 d refs args)).1 _ hx
  | writeObject _ refs args =>
    exact (preserves_trans 0 _ _ _ (addressForArgs_preserves 0 d args 2)
      (writeObject_after 0 d refs args)).1 _ hx
  | reinterpret _ args =>
    exact (preserves_trans 0 _ _ _ (addressForArgs_preserves 0 d args 2)
      (reinterpret_after 0 d args)).1 _ hx
  | reinterpretUntilZeros w hT _ args =>
    exact (preserves_trans 0 _ _ _ (addressForArgs_preserves 0 d args 1)
      (reinterpretUntilZeros_after 0 w hT d args)).1 _ hx
  | reinterpretUntilZeros8 fuel _ args r hr =>
    exact (preserves_trans 0 _ _ _ (addressForArgs_preserves 0 d args 1)
      (reinterpretUntilZeros8_after 0 fuel d args r hr)).1 _ hx
  | collect _ id => exact hx
  | deliver _ id g _ hne _ hd => exact deliver_keeps_other d d2 id g hd _ hx (Ne.symm hne)

theorem register_deleteRef_mem (data : InstanceData) (buf : ArrayBuffer) (mode : ArrayBufferMode)
    (x t : Nat)
    (hx : (x, Finalizer.deleteRef t) ∈ (RegisterArrayBufferImpl data buf mode).env.finalizers) :
    (x, Finalizer.deleteRef t) ∈ data.env.finalizers := by
  unfold RegisterArrayBufferImpl at hx
  by_cases h0 : buf.data = 0
  · simpa [h0] using hx
  · cases hf : data.pointer_to_orig_buffer buf.data with
    | none =>
      cases mode <;>
        simpa [h0, hf, InstanceData.store, InstanceData.AddFinalizer] using hx
    | some it =>
      cases hab : it.ab <;> cases mode <;>
        simpa [h0, hf, hab, InstanceData.store, InstanceData.AddFinalizer] using hx

theorem writePointer_buffer (data : InstanceData) (a b : Buffer) (offset : Int) :
    WritePointer data [.buffer a, .buffer b, .number offset, .boolean true]
      = (.ok (),
         (RegisterArrayBufferImpl
            ((RegisterArrayBufferImpl data a.ab .AB_PASSED_TO_REF).AddFinalizer a.id
              (.deleteRef b.id))
            b.ab .AB_PASSED_TO_REF).poke (ptrAdd a.Data (Int64Value (some offset))) b.Data)
    ∧ WritePointer data [.buffer a, .buffer b, .number offset, .boolean false]
      = (.ok (),
         (RegisterArrayBufferImpl (RegisterArrayBufferImpl data a.ab .AB_PASSED_TO_REF)
            b.ab .AB_PASSED_TO_REF).poke (ptrAdd a.Data (Int64Value (some offset))) b.Data)
    ∧ WritePointer data [.buffer a, .buffer b, .number offset]
      = (.ok (),
         (RegisterArrayBufferImpl (RegisterArrayBufferImpl data a.ab .AB_PASSED_TO_REF)
            b.ab .AB_PASSED_TO_REF).poke (ptrAdd a.Data (Int64Value (some offset))) b.Data)
    ∧ WritePointer data [.buffer a, .null, .number offset, .boolean true]
      = (.ok (),
         (RegisterArrayBufferImpl data a.ab .AB_PASSED_TO_REF).poke
            (ptrAdd a.Data (Int64Value (some offset))) 0) := by
  refine ⟨?_, ?_, ?_, ?_⟩ <;>
    simp only [WritePointer, addressForArgs_buffer] <;>
    simp [arg, Value.ToNumber, GetBufferData, InstanceData.GetBufferData,
      InstanceData.RegisterArrayBuffer]

theorem register_makes_valid (data : InstanceData) (buf : ArrayBuffer) (mode : ArrayBufferMode)
    (hp : buf.data ≠ 0) :
    ∃ it ab, (RegisterArrayBufferImpl data buf mode).pointer_to_orig_buffer buf.data = some it
      ∧ it.ab = some ab := by
  cases hf : data.pointer_to_orig_buffer buf.data with
  | none => exact ⟨_, buf, register_on_absent data buf mode hp hf, rfl⟩
  | some it =>
    cases hab : it.ab with
    | none => exact ⟨_, buf, register_on_cleared data buf mode hp it hf hab, rfl⟩
    | some ab =>
      refine ⟨it, ab, ?_, hab⟩
      unfold RegisterArrayBufferImpl
      simp [hp, hf, hab]

theorem after_registration (data d2 : InstanceData) (buf : Buffer) (hbase : buf.ab.data ≠ 0)
    (h : (RegisterArrayBufferImpl data buf.ab .AB_PASSED_TO_REF).Preserves buf.ab.data d2) :
    d2.pointer_to_orig_buffer buf.ab.data
      = (RegisterArrayBufferImpl data buf.ab .AB_PASSED_TO_REF).pointer_to_orig_buffer
          buf.ab.data := by
  apply h.2
  obtain ⟨it, ab, hit, hab⟩ := register_makes_valid data buf.ab .AB_PASSED_TO_REF hbase
  simp [InstanceData.canonical, hit, hab]

/-! ## Lemmas on object references -/

theorem issued_initial : References.initial.Issued := by
  intro p h hs
  simp [References.initial] at hs

theorem reset_issued (refs : References) (ptr : Nat) (hi : refs.Issued) :
    (refs.Reset ptr).Issued := by
  intro p h hs
  unfold References.Reset at hs ⊢
  cases hslot : refs.slot ptr with
  | none =>
    simp only [hslot] at hs ⊢
    exact hi p h hs
  | some h0 =>
    simp only [hslot] at hs ⊢
    by_cases hp : p = ptr
    · simp [hp] at hs
    · simp only [hp, if_false] at hs
      exact hi p h hs

theorem writeObject_issued (data : InstanceData) (refs : References) (args : List Value)
    (hi : refs.Issued) : (WriteObject data refs args).2.2.Issued := by
  unfold WriteObject
  cases h : AddressForArgs data args 2 with
  | mk r d =>
    cases r with
    | error e => exact hi
    | ok ptr =>
      simp only
      split
      · exact hi
      · split
        · intro p h hs
          have hr := reset_issued (refs.New (arg args 1)).2 ptr (by
            intro q k hk
            have := hi q k hk
            simp only [References.New]
            omega)
          by_cases hp : p = ptr
          · simp only [References.moveAssign, hp, if_true, Option.some.injEq] at hs
            subst hs
            have hn : ((refs.New (arg args 1)).2.Reset ptr).nextRef = refs.nextRef + 1 := by
              unfold References.Reset
              cases (refs.New (arg args 1)).2.slot ptr <;> rfl
            show (refs.New (arg args 1)).1 < ((refs.New (arg args 1)).2.Reset ptr).nextRef
            rw [hn]
            simp only [References.New]
            omega
          · simp only [References.moveAssign, hp, if_false] at hs
            exact hr p h hs
        · split
          · exact reset_issued refs ptr hi
          · exact hi

/-! ## C1: wrapping the same address twice -/

/-- C1. For a non-null address `p`, lengths `L1`, `L2` and any state: the second of
two consecutive calls `WrapPointer(p, L1)`, `WrapPointer(p, L2)` returns a view of
the same `ArrayBuffer` object as the first, that object is the canonical buffer
`LookupOrCreateArrayBuffer` finds for `p`, and the lookup of the second call
creates nothing: it leaves the state as the first call left it. -/
theorem wrap_idempotent (data : InstanceData) (p L1 L2 : Nat) (hp : p ≠ 0) :
    ((data.WrapPointer p L1).2.WrapPointer p L2).1.ab = (data.WrapPointer p L1).1.ab
    ∧ (data.WrapPointer p L1).2.canonical p = some (data.WrapPointer p L1).1.ab
    ∧ LookupOrCreateArrayBuffer (data.WrapPointer p L1).2 p L2 hp
        = ((data.WrapPointer p L1).1.ab, (data.WrapPointer p L1).2)
    ∧ ((data.WrapPointer p L1).2.WrapPointer p L2).2.pointer_to_orig_buffer
        = (data.WrapPointer p L1).2.pointer_to_orig_buffer
    ∧ ((data.WrapPointer p L1).2.WrapPointer p L2).2.env.finalizers
        = (data.WrapPointer p L1).2.env.finalizers := by
  have hc : (data.WrapPointer p L1).2.canonical p = some (data.WrapPointer p L1).1.ab := by
    rw [wrapPointer_nonnull data p L1 hp, buffer_from_canonical]
    exact lookupOrCreate_canonical data p L1 hp
  have hl := lookupOrCreate_hit (data.WrapPointer p L1).2 p L2 hp _ hc
  refine ⟨?_, hc, hl, ?_, ?_⟩
  · rw [wrapPointer_nonnull (data.WrapPointer p L1).2 p L2 hp, hl]
    rfl
  · rw [wrapPointer_nonnull (data.WrapPointer p L1).2 p L2 hp, hl]
    rfl
  · rw [wrapPointer_nonnull (data.WrapPointer p L1).2 p L2 hp, hl]
    rfl

/-- C1 at `p = 4096`, `L1 = 8`, `L2 = 64`, from the initial state. -/
theorem wrap_idempotent_witness :
    (4096 : Nat) ≠ 0
    ∧ ((InstanceData.initial.WrapPointer 4096 8).2.WrapPointer 4096 64).1.ab
      = (InstanceData.initial.WrapPointer 4096 8).1.ab :=
  ⟨by decide, (wrap_idempotent InstanceData.initial 4096 8 64 (by decide)).1⟩

/-! ## C2: counts and releases -/

/-- C2, as stated, fails for `N = 2`: two registrations of buffers at address `4096`,
the second made while the canonical buffer of the first is still valid, leave the
count at `1`, and a single `UnregisterArrayBuffer` (that is `N - 1` releases)
erases the entry. -/
theorem two_live_registrations_one_release :
    (RegisterArrayBufferImpl
        (RegisterArrayBufferImpl InstanceData.initial
          { id := 0, data := 4096, byteLength := 16 } .AB_PASSED_TO_REF)
        { id := 1, data := 4096, byteLength := 16 } .AB_PASSED_TO_REF).count 4096 = 1
    ∧ ∃ d, unregisterTimes 1
        (RegisterArrayBufferImpl
          (RegisterArrayBufferImpl InstanceData.initial
            { id := 0, data := 4096, byteLength := 16 } .AB_PASSED_TO_REF)
          { id := 1, data := 4096, byteLength := 16 } .AB_PASSED_TO_REF) 4096 = .ok d
      ∧ d.pointer_to_orig_buffer 4096 = none :=
  ⟨rfl, _, rfl, rfl⟩

/-- C2, amended. The count of an entry is the number of registrations that found the
entry absent or its reference empty. For `N ≥ 1` buffers at a non-null address `p`
with no entry, registered one after the other, each after the one before it was
reclaimed: the entry for `p` has count `N`; after any `k < N` calls of
`UnregisterArrayBuffer` for `p` the entry is still present, with count `N - k`;
after exactly `N` calls it is erased. -/
theorem refcount_counts_effective_registrations (data : InstanceData) (p : Nat)
    (bufs : List ArrayBuffer) (mode : ArrayBufferMode) (hp : p ≠ 0)
    (hbufs : ∀ b ∈ bufs, b.data = p) (hne : bufs ≠ [])
    (habsent : data.pointer_to_orig_buffer p = none) :
    (registerEach data bufs mode).count p = bufs.length
    ∧ (∀ k, k < bufs.length →
        ∃ d it, unregisterTimes k (registerEach data bufs mode) p = .ok d
          ∧ d.pointer_to_orig_buffer p = some it
          ∧ it.finalizer_count = bufs.length - k)
    ∧ ∃ d, unregisterTimes bufs.length (registerEach data bufs mode) p = .ok d
        ∧ d.pointer_to_orig_buffer p = none := by
  obtain ⟨it, hit, hcount⟩ := registerEach_count p hp mode bufs data hbufs hne
  have h0 : data.count p = 0 := by simp [InstanceData.count, habsent]
  rw [h0, Nat.zero_add] at hcount
  have hlen : 1 ≤ bufs.length := by
    cases bufs with
    | nil => exact absurd rfl hne
    | cons _ _ => simp
  refine ⟨by simp [InstanceData.count, hit, hcount], ?_, ?_⟩
  · intro k hk
    obtain ⟨d, hd, hentry⟩ := unregisterTimes_lt p k _ it hit (by omega)
    exact ⟨d, _, hd, hentry, by simp only; omega⟩
  · have := unregisterTimes_all p _ it hit (by omega)
    rw [hcount] at this
    exact this

/-- C2, amended, for two buffers at `4096` from the initial state: count `2`. -/
theorem refcount_counts_effective_registrations_witness :
    (4096 : Nat) ≠ 0
    ∧ (registerEach InstanceData.initial
        [{ id := 0, data := 4096, byteLength := 16 }, { id := 1, data := 4096, byteLength := 16 }]
        .AB_PASSED_TO_REF).count 4096 = 2 :=
  ⟨by decide,
   (refcount_counts_effective_registrations InstanceData.initial 4096
      [{ id := 0, data := 4096, byteLength := 16 }, { id := 1, data := 4096, byteLength := 16 }]
      .AB_PASSED_TO_REF (by decide) (by decide) (by decide) rfl).1⟩

/-! ## C3, C4: `RegisterArrayBufferImpl` -/

/-- C3. When the registry holds an entry for the base address of `buf` and the weak
reference of that entry is not empty, `RegisterArrayBufferImpl` returns the state it
was given, for both modes: registry, counts and attached finalizers are the same,
so the canonical buffer of the address is the one it was. -/
theorem register_live_noop (data : InstanceData) (buf : ArrayBuffer) (mode : ArrayBufferMode)
    (it : ArrayBufferEntry) (hfind : data.pointer_to_orig_buffer buf.data = some it)
    (hvalid : it.ab.isSome = true) :
    RegisterArrayBufferImpl data buf mode = data
    ∧ (RegisterArrayBufferImpl data buf mode).pointer_to_orig_buffer buf.data = some it
    ∧ (RegisterArrayBufferImpl data buf mode).env.finalizers = data.env.finalizers
    ∧ (RegisterArrayBufferImpl data buf mode).canonical buf.data = it.ab := by
  have h : RegisterArrayBufferImpl data buf mode = data := by
    unfold RegisterArrayBufferImpl
    by_cases h0 : buf.data = 0
    · simp [h0]
    · simp [h0, hfind, hvalid]
  rw [h]
  exact ⟨rfl, hfind, rfl, by simp [InstanceData.canonical, hfind]⟩

/-- C3 on the state left by one registration of a buffer at address `4096`: a
second buffer at the same address is not registered. -/
theorem register_live_noop_witness :
    RegisterArrayBufferImpl
        (RegisterArrayBufferImpl InstanceData.initial
          { id := 0, data := 4096, byteLength := 16 } .AB_PASSED_TO_REF)
        { id := 7, data := 4096, byteLength := 32 } .AB_PASSED_TO_REF
      = RegisterArrayBufferImpl InstanceData.initial
          { id := 0, data := 4096, byteLength := 16 } .AB_PASSED_TO_REF :=
  (register_live_noop
    (RegisterArrayBufferImpl InstanceData.initial
      { id := 0, data := 4096, byteLength := 16 } .AB_PASSED_TO_REF)
    { id := 7, data := 4096, byteLength := 32 } .AB_PASSED_TO_REF
    { ab := some { id := 0, data := 4096, byteLength := 16 }, finalizer_count := 1 }
    (by rfl) (by rfl)).1

/-- C4. For a buffer with a non-null base address and both modes: when the registry
has no entry for the address, `RegisterArrayBufferImpl` creates one with count `1`
and the buffer as its reference; when it has an entry whose reference is empty,
the buffer becomes the reference and the count grows by exactly `1`. -/
theorem register_absent_or_cleared (data : InstanceData) (buf : ArrayBuffer)
    (mode : ArrayBufferMode) (hp : buf.data ≠ 0) :
    (data.pointer_to_orig_buffer buf.data = none →
      (RegisterArrayBufferImpl data buf mode).pointer_to_orig_buffer buf.data
        = some { ab := some buf, finalizer_count := 1 })
    ∧ (∀ it : ArrayBufferEntry, data.pointer_to_orig_buffer buf.data = some it → it.ab = none →
      (RegisterArrayBufferImpl data buf mode).pointer_to_orig_buffer buf.data
        = some { ab := some buf, finalizer_count := it.finalizer_count + 1 }) := by
  exact ⟨register_on_absent data buf mode hp, register_on_cleared data buf mode hp⟩

/-- C4 on the initial state, which has no entry for `4096`, and on a state whose
entry for `4096` has an empty reference and count `3`. -/
theorem register_absent_or_cleared_witness :
    (4096 : Nat) ≠ 0
    ∧ (RegisterArrayBufferImpl InstanceData.initial
        { id := 0, data := 4096, byteLength := 16 } .AB_PASSED_TO_REF).pointer_to_orig_buffer 4096
      = some { ab := some { id := 0, data := 4096, byteLength := 16 }, finalizer_count := 1 }
    ∧ (RegisterArrayBufferImpl
        (InstanceData.initial.store 4096 { ab := none, finalizer_count := 3 })
        { id := 9, data := 4096, byteLength := 16 } .AB_CREATED_BY_REF).pointer_to_orig_buffer 4096
      = some { ab := some { id := 9, data := 4096, byteLength := 16 }, finalizer_count := 3 + 1 } :=
  ⟨by decide,
   (register_absent_or_cleared InstanceData.initial
      { id := 0, data := 4096, byteLength := 16 } .AB_PASSED_TO_REF (by decide)).1 rfl,
   (register_absent_or_cleared
      (InstanceData.initial.store 4096 { ab := none, finalizer_count := 3 })
      { id := 9, data := 4096, byteLength := 16 } .AB_CREATED_BY_REF (by decide)).2
      { ab := none, finalizer_count := 3 } (by rfl) rfl⟩

/-! ## C5, C6: `UnregisterArrayBuffer` -/

/-- C5. When the registry holds an entry for `p` with count `n ≥ 1`,
`UnregisterArrayBuffer` returns a state in which, if `n > 1`, the entry for `p` is
still there with count `n - 1` and the same reference, and, if `n = 1`, there is no
entry for `p`. -/
theorem unregister_decrements_evicts (data : InstanceData) (p : Nat) (it : ArrayBufferEntry)
    (hfind : data.pointer_to_orig_buffer p = some it) (hn : 1 ≤ it.finalizer_count) :
    ∃ d, UnregisterArrayBuffer data p = .ok d
      ∧ (1 < it.finalizer_count →
          d.pointer_to_orig_buffer p
            = some { ab := it.ab, finalizer_count := it.finalizer_count - 1 })
      ∧ (it.finalizer_count = 1 → d.pointer_to_orig_buffer p = none) := by
  refine ⟨_, unregister_of_entry data p it hfind hn, ?_, ?_⟩
  · intro h
    have h1 : it.finalizer_count ≠ 1 := by omega
    simp [h1, InstanceData.store]
  · intro h
    simp [h, InstanceData.erase]

/-- C5 on an entry with count `2` at address `4096`: one call leaves count `1`. -/
theorem unregister_decrements_evicts_witness :
    ∃ d, UnregisterArrayBuffer
        (InstanceData.initial.store 4096 { ab := none, finalizer_count := 2 }) 4096 = .ok d
      ∧ ((1 : Nat) < 2 →
          d.pointer_to_orig_buffer 4096 = some { ab := none, finalizer_count := 2 - 1 })
      ∧ ((2 : Nat) = 1 → d.pointer_to_orig_buffer 4096 = none) :=
  unregister_decrements_evicts
    (InstanceData.initial.store 4096 { ab := none, finalizer_count := 2 }) 4096
    { ab := none, finalizer_count := 2 } (by rfl) (by decide)

/-- C6, as stated, fails: on the initial state, which holds no entry for `4096`,
`UnregisterArrayBuffer` dereferences the `end()` iterator that `find` returned. -/
theorem unregister_missing_entry_faults :
    InstanceData.initial.pointer_to_orig_buffer 4096 = none
    ∧ UnregisterArrayBuffer InstanceData.initial 4096 = .error .endDereferenced :=
  ⟨rfl, rfl⟩

/-- C6, amended. `UnregisterArrayBuffer` for `p` completes exactly when the registry
holds an entry for `p` whose count is at least `1`; the state it then returns has,
at every address other than `p`, the entry it had before, and the environment is
untouched. With no entry for `p` the call is a dereference of `end()`. -/
theorem unregister_safe_iff_entry (data : InstanceData) (p : Nat) :
    ((∃ d, UnregisterArrayBuffer data p = .ok d)
      ↔ ∃ it, data.pointer_to_orig_buffer p = some it ∧ 1 ≤ it.finalizer_count)
    ∧ (∀ d, UnregisterArrayBuffer data p = .ok d →
        (∀ q, q ≠ p → d.pointer_to_orig_buffer q = data.pointer_to_orig_buffer q)
        ∧ d.env.finalizers = data.env.finalizers ∧ d.env.nextId = data.env.nextId)
    ∧ (data.pointer_to_orig_buffer p = none →
        UnregisterArrayBuffer data p = .error .endDereferenced) := by
  refine ⟨⟨?_, ?_⟩, ?_, ?_⟩
  · rintro ⟨d, hd⟩
    unfold UnregisterArrayBuffer at hd
    cases hf : data.pointer_to_orig_buffer p with
    | none => simp [hf] at hd
    | some it =>
      refine ⟨it, rfl, ?_⟩
      by_contra hlt
      have h0 : it.finalizer_count = 0 := by omega
      simp [hf, h0] at hd
  · rintro ⟨it, hf, hn⟩
    exact ⟨_, unregister_of_entry data p it hf hn⟩
  · intro d hd
    unfold UnregisterArrayBuffer at hd
    cases hf : data.pointer_to_orig_buffer p with
    | none => simp [hf] at hd
    | some it =>
      simp only [hf] at hd
      split at hd
      · simp at hd
      · split at hd
        · injection hd with hd
          subst hd
          refine ⟨?_, rfl, rfl⟩
          intro q hq
          simp [InstanceData.erase, hq]
        · injection hd with hd
          subst hd
          refine ⟨?_, rfl, rfl⟩
          intro q hq
          simp [InstanceData.store, hq]
  · intro hf
    simp [UnregisterArrayBuffer, hf]

/-- C6, amended, on a registry with entries at `4096` (count `1`) and `8192`:
unregistering `4096` completes and the entry at `8192` is the one it was. -/
theorem unregister_safe_iff_entry_witness :
    ∃ d, UnregisterArrayBuffer
        ((InstanceData.initial.store 8192 { ab := none, finalizer_count := 5 }).store 4096
          { ab := none, finalizer_count := 1 }) 4096 = .ok d
      ∧ d.pointer_to_orig_buffer 8192 = some { ab := none, finalizer_count := 5 } := by
  have h := unregister_safe_iff_entry
    ((InstanceData.initial.store 8192 { ab := none, finalizer_count := 5 }).store 4096
      { ab := none, finalizer_count := 1 }) 4096
  obtain ⟨d, hd⟩ := h.1.2 ⟨{ ab := none, finalizer_count := 1 }, by rfl, by decide⟩
  exact ⟨d, hd, ((h.2.1 d hd).1 8192 (by decide)).trans (by rfl)⟩

/-! ## C7: the null address -/

/-- C7. For every requested length `L` and every state, `WrapPointer(nullptr, L)`
returns a buffer of length `0` whose address is null, and the registry after the
call is the registry before it; the only finalizer it attaches is the empty one.
`Address` of the returned buffer is `0`. Registering an `ArrayBuffer` whose
`Data()` is null, in either mode, returns the state unchanged. -/
theorem wrap_null_exempt (data : InstanceData) (L : Nat) :
    (data.WrapPointer 0 L).1.length = 0
    ∧ (data.WrapPointer 0 L).1.Data = 0
    ∧ (data.WrapPointer 0 L).2.pointer_to_orig_buffer = data.pointer_to_orig_buffer
    ∧ (data.WrapPointer 0 L).2.env.finalizers
        = ((data.WrapPointer 0 L).1.ab.id, Finalizer.noop) :: data.env.finalizers
    ∧ (Address (data.WrapPointer 0 L).2 [.buffer (data.WrapPointer 0 L).1]).1 = .ok 0
    ∧ (Address (data.WrapPointer 0 L).2 [.buffer (data.WrapPointer 0 L).1]).2.pointer_to_orig_buffer
        = data.pointer_to_orig_buffer
    ∧ ∀ (id byteLength : Nat) (mode : ArrayBufferMode),
        RegisterArrayBufferImpl data { id := id, data := 0, byteLength := byteLength } mode
          = data := by
  refine ⟨?_, ?_, ?_, ?_, ?_, ?_, ?_⟩
  · simp [InstanceData.WrapPointer, Buffer.New]
  · simp [InstanceData.WrapPointer, Buffer.New, Buffer.Data]
  · simp [InstanceData.WrapPointer, Buffer.New]
  · simp [InstanceData.WrapPointer, Buffer.New]
  · simp [Address, AddressForArgs, arg, GetBufferData, InstanceData.GetBufferData,
      InstanceData.WrapPointer, Buffer.New, Buffer.Data, Value.ToNumber, Int64Value, ptrAdd]
  · simp [Address, AddressForArgs, arg, GetBufferData, InstanceData.GetBufferData,
      InstanceData.RegisterArrayBuffer, RegisterArrayBufferImpl,
      InstanceData.WrapPointer, Buffer.New, Value.ToNumber]
  · intro id byteLength mode
    simp [RegisterArrayBufferImpl]

/-! ## C8: the length of a created region -/

/-- C8, as stated, fails: from the initial state a request of `0x40000000` bytes at
address `4096` misses and the region created is `0x40000000` bytes long, one more
than `kMaxLength`. -/
theorem region_exceeds_kMaxLength :
    InstanceData.initial.canonical 4096 = none
    ∧ (LookupOrCreateArrayBuffer InstanceData.initial 4096 0x40000000 (by decide)).1.byteLength
        = 0x40000000
    ∧ ¬ (LookupOrCreateArrayBuffer InstanceData.initial 4096 0x40000000 (by decide)).1.byteLength
        ≤ kMaxLength := by
  decide

/-- C8, amended. For a non-null address with no valid canonical buffer, the region
`LookupOrCreateArrayBuffer` creates has byte length `max length kMaxLength`: it is at
least the requested length, hence at least the requested length clamped to
`kMaxLength`, it is at least `kMaxLength`, and it equals `kMaxLength` whenever the
request does not exceed `kMaxLength`. -/
theorem region_length_on_miss (data : InstanceData) (p length : Nat) (hp : p ≠ 0)
    (hmiss : data.canonical p = none) :
    (LookupOrCreateArrayBuffer data p length hp).1.byteLength = max length kMaxLength
    ∧ length ≤ (LookupOrCreateArrayBuffer data p length hp).1.byteLength
    ∧ min length kMaxLength ≤ (LookupOrCreateArrayBuffer data p length hp).1.byteLength
    ∧ kMaxLength ≤ (LookupOrCreateArrayBuffer data p length hp).1.byteLength
    ∧ (length ≤ kMaxLength →
        (LookupOrCreateArrayBuffer data p length hp).1.byteLength = kMaxLength) := by
  have hlen : (LookupOrCreateArrayBuffer data p length hp).1.byteLength
      = max length kMaxLength := by
    rw [lookupOrCreate_miss_byteLength data p length hp hmiss]
  rw [hlen]
  refine ⟨rfl, le_max_left _ _, ?_, le_max_right _ _, ?_⟩
  · exact le_trans (min_le_left _ _) (le_max_left _ _)
  · intro h
    exact max_eq_right h

/-- C8, amended, for a request of `16` bytes at `4096` from the initial state: the
region is `kMaxLength` bytes long. -/
theorem region_length_on_miss_witness :
    (4096 : Nat) ≠ 0 ∧ InstanceData.initial.canonical 4096 = none
    ∧ (LookupOrCreateArrayBuffer InstanceData.initial 4096 16 (by decide)).1.byteLength
        = max 16 kMaxLength :=
  ⟨by decide, rfl,
   (region_length_on_miss InstanceData.initial 4096 16 (by decide) rfl).1⟩

/-! ## C9: pointer round trip -/

/-- C10. For every buffer, numeric offset and numeric length: `ReadPointer` throws
exactly when `Address` of the same buffer and offset is `0`, and what it throws
then is the `Error` of the null check; and when the source address is not null
and the pointer stored there is null, `ReadPointer` succeeds with a buffer of
length `0` at the null address, whatever the requested length. -/
theorem readPointer_fails_iff_null_source (data : InstanceData) (buf : Buffer)
    (offset length : Int) :
    ((ReadPointer data [.buffer buf, .number offset, .number length]).1 = .error .Error
      ↔ (Address data [.buffer buf, .number offset]).1 = .ok 0)
    ∧ (∀ e, (ReadPointer data [.buffer buf, .number offset, .number length]).1 = .error e →
        e = .Error ∧ (Address data [.buffer buf, .number offset]).1 = .ok 0)
    ∧ (∀ ptr, (AddressForArgs data [.buffer buf, .number offset] 1).1 = .ok ptr → ptr ≠ 0 →
        loadPointer data.env.memory ptr = 0 →
        ∃ view, (ReadPointer data [.buffer buf, .number offset, .number length]).1 = .ok view
          ∧ view.length = 0 ∧ view.Data = 0) := by
  have hconv : ∀ rest : List Value,
      AddressForArgs data (.buffer buf :: .number offset :: rest) 1
        = (.ok (ptrAdd buf.Data (Int64Value (some offset))),
           RegisterArrayBufferImpl data buf.ab .AB_PASSED_TO_REF) :=
    fun rest => addressForArgs_converted data buf (.number offset :: rest) 1 (some offset) rfl
  have hlt := ptrAdd_lt buf.Data (Int64Value (some offset))
  have haddr : (Address data [.buffer buf, .number offset]).1 = .ok 0
      ↔ ptrAdd buf.Data (Int64Value (some offset)) = 0 := by
    simp only [Address, hconv]
    constructor
    · intro h
      injection h with h
      split at h
      · exact_mod_cast h
      · norm_num at hlt h
        omega
    · intro h
      rw [h]
      simp
  have hread : (ReadPointer data [.buffer buf, .number offset, .number length]).1
      = if ptrAdd buf.Data (Int64Value (some offset)) = 0 then .error .Error
        else .ok (WrapPointer (RegisterArrayBufferImpl data buf.ab .AB_PASSED_TO_REF)
          (loadPointer data.env.memory
            (ptrAdd buf.Data (Int64Value (some offset))))
          (toSizeT (Int64Value (some length)))).1 := by
    simp only [ReadPointer, hconv, register_memory, arg, List.getD_cons_succ,
      List.getD_cons_zero, Value.ToNumber]
    split <;> rfl
  refine ⟨?_, ?_, ?_⟩
  · rw [haddr, hread]
    constructor
    · intro h
      by_contra hne
      simp [hne] at h
    · intro h
      simp [h]
  · intro e he
    rw [hread] at he
    by_cases h0 : ptrAdd buf.Data (Int64Value (some offset)) = 0
    · simp only [h0, if_true] at he
      injection he with he
      exact ⟨he.symm, haddr.2 h0⟩
    · simp [h0] at he
  · intro ptr hptr hne hnull
    simp only [hconv] at hptr
    injection hptr with hptr
    rw [hread, hptr]
    simp only [hne, if_false, hnull]
    exact ⟨_, rfl, (wrapPointer_null _ _).2, (wrapPointer_null _ _).1⟩

/-- C10 on the initial state, whose memory is all zero: reading a pointer from the
buffer at `4096` with requested length `64` gives a buffer of length `0`. -/
theorem readPointer_fails_iff_null_source_witness :
    (AddressForArgs InstanceData.initial [.buffer exampleBuffer, .number 0] 1).1 = .ok 4096
    ∧ ∃ view,
      (ReadPointer InstanceData.initial [.buffer exampleBuffer, .number 0, .number 64]).1
        = .ok view
      ∧ view.length = 0 ∧ view.Data = 0 :=
  ⟨by rfl,
   (readPointer_fails_iff_null_source InstanceData.initial exampleBuffer 0 64).2.2 4096
     (by rfl) (by decide) (by rfl)⟩

/-! ## C11: embedded object references -/

/-- C11. For a buffer `a`, an offset `k` at which the address is not null and an
object `o`, in a state whose stored handles were all handed out before:
`WriteObject(a, o, k)` succeeds and the `ReadObject(a, k)` that follows returns `o`
itself; the slot then holds the new reference, and a reference the slot held before
is deleted, not left live. `WriteObject(a, null, k)` succeeds, leaves the slot
without a reference and deletes the one it held, so `ReadObject(a, k)` returns the
empty value and no object. -/
theorem object_round_trip (data : InstanceData) (refs : References) (a : Buffer) (k : Int)
    (o : Value) (ho : o.IsObject = true) (hissued : refs.Issued)
    (hptr : ptrAdd a.Data (Int64Value (some k)) ≠ 0) :
    (WriteObject data refs [.buffer a, o, .number k]).1 = .ok ()
    ∧ (ReadObject (WriteObject data refs [.buffer a, o, .number k]).2.1
        (WriteObject data refs [.buffer a, o, .number k]).2.2 [.buffer a, .number k]).1 = .ok o
    ∧ (WriteObject data refs [.buffer a, o, .number k]).2.2.slot
        (ptrAdd a.Data (Int64Value (some k))) = some refs.nextRef
    ∧ (∀ h, refs.slot (ptrAdd a.Data (Int64Value (some k))) = some h →
        ∀ v, (h, v) ∉ (WriteObject data refs [.buffer a, o, .number k]).2.2.live)
    ∧ (WriteObject data refs [.buffer a, .null, .number k]).1 = .ok ()
    ∧ (WriteObject data refs [.buffer a, .null, .number k]).2.2.slot
        (ptrAdd a.Data (Int64Value (some k))) = none
    ∧ (∀ h, refs.slot (ptrAdd a.Data (Int64Value (some k))) = some h →
        ∀ v, (h, v) ∉ (WriteObject data refs [.buffer a, .null, .number k]).2.2.live)
    ∧ (ReadObject (WriteObject data refs [.buffer a, .null, .number k]).2.1
        (WriteObject data refs [.buffer a, .null, .number k]).2.2 [.buffer a, .number k]).1
        = .ok .undefined := by
  have hw : WriteObject data refs [.buffer a, o, .number k]
      = (.ok (), RegisterArrayBufferImpl data a.ab .AB_PASSED_TO_REF,
         (refs.New o).2.moveAssign (ptrAdd a.Data (Int64Value (some k))) (refs.New o).1) := by
    simp only [WriteObject, addressForArgs_buffer]
    simp [arg, Value.ToNumber, hptr, ho]
  have hn : WriteObject data refs [.buffer a, .null, .number k]
      = (.ok (), RegisterArrayBufferImpl data a.ab .AB_PASSED_TO_REF,
         refs.Reset (ptrAdd a.Data (Int64Value (some k)))) := by
    simp only [WriteObject, addressForArgs_buffer]
    simp [arg, Value.ToNumber, hptr, Value.IsObject, Value.IsNull]
  have hr : ∀ (d : InstanceData) (r : References),
      (ReadObject d r [.buffer a, .number k]).1
        = .ok (r.Value (ptrAdd a.Data (Int64Value (some k)))) := by
    intro d r
    simp only [ReadObject, addressForArgs_buffer]
    simp [arg, Value.ToNumber, hptr]
  rw [hw, hn]
  refine ⟨rfl, ?_, ?_, ?_, rfl, ?_, ?_, ?_⟩
  · rw [hr]
    cases hs : refs.slot (ptrAdd a.Data (Int64Value (some k))) with
    | none =>
      simp [References.Value, References.moveAssign, References.Reset, References.New, hs]
    | some h =>
      have hlt : h ≠ refs.nextRef := Nat.ne_of_lt (hissued _ h hs)
      simp [References.Value, References.moveAssign, References.Reset, References.New, hs,
        List.filter_cons, Ne.symm hlt]
  · simp [References.moveAssign, References.New]
  · intro h hs v
    simp [References.moveAssign, References.Reset, References.New, hs, List.mem_filter]
  · cases hs : refs.slot (ptrAdd a.Data (Int64Value (some k))) with
    | none => simp [References.Reset, hs]
    | some h => simp [References.Reset, hs]
  · intro h hs v
    simp [References.Reset, hs, List.mem_filter]
  · rw [hr]
    cases hs : refs.slot (ptrAdd a.Data (Int64Value (some k))) with
    | none => simp [References.Value, References.Reset, hs]
    | some h => simp [References.Value, References.Reset, hs]

/-- C11 from the initial state, for the buffer at `4096`, offset `0` and the object
with identity `77`: it is read back. -/
theorem object_round_trip_witness :
    (ReadObject
        (WriteObject InstanceData.initial References.initial
          [.buffer exampleBuffer, .object 77, .number 0]).2.1
        (WriteObject InstanceData.initial References.initial
          [.buffer exampleBuffer, .object 77, .number 0]).2.2
        [.buffer exampleBuffer, .number 0]).1 = .ok (.object 77) :=
  (object_round_trip InstanceData.initial References.initial exampleBuffer 0 (.object 77)
    (by rfl) (by intro p h hs; simp [References.initial] at hs) (by decide)).2.1

/-! ## C12: the offset argument -/

/-- C12, as stated, fails: with the offset `undefined`, which is not a number,
`Address` of the buffer at `4096` returns `4096`, and with the offset `true` it
returns `4097`; neither call throws. -/
theorem address_accepts_non_numeric_offset :
    (Address InstanceData.initial [.buffer exampleBuffer, .undefined]).1 = .ok 4096
    ∧ (Address InstanceData.initial [.buffer exampleBuffer, .boolean true]).1 = .ok 4097 := by
  constructor <;> rfl

/-- C12, amended. For a call whose first argument is a buffer, `AddressForArgs`
fails exactly when the coercion `ToNumber` of the offset argument throws, with what
the coercion threw, and the buffer is then not registered: the state is as before.
So it fails with `TypeError` for a `Symbol` and for a `BigInt`, and `Address` fails
with it. The other offsets that are not numbers are coerced and an address is
returned: `undefined` (an absent argument), `null` and `false` count as `0`, `true`
as `1`; a number counts as itself read as an `int64_t`; an object is converted by
its own methods. A call whose first argument is not a buffer fails with
`TypeError`. -/
theorem addressForArgs_offset_coercion (data : InstanceData) (buf : Buffer)
    (rest : List Value) (i : Nat) :
    (∀ e, (AddressForArgs data (.buffer buf :: rest) i).1 = .error e
        ↔ (arg (.buffer buf :: rest) i).ToNumber data.env = .error e)
    ∧ (∀ e, (arg (.buffer buf :: rest) i).ToNumber data.env = .error e →
        AddressForArgs data (.buffer buf :: rest) i = (.error e, data))
    ∧ (∀ n, (arg (.buffer buf :: rest) i).ToNumber data.env = .ok n →
        AddressForArgs data (.buffer buf :: rest) i
          = (.ok (ptrAdd buf.Data (Int64Value n)),
             RegisterArrayBufferImpl data buf.ab .AB_PASSED_TO_REF))
    ∧ ((arg (.buffer buf :: rest) i = .symbol ∨ ∃ n, arg (.buffer buf :: rest) i = .bigint n) →
        AddressForArgs data (.buffer buf :: rest) i = (.error .TypeError, data))
    ∧ ((arg (.buffer buf :: rest) 1 = .symbol ∨ ∃ n, arg (.buffer buf :: rest) 1 = .bigint n) →
        Address data (.buffer buf :: rest) = (.error .TypeError, data))
    ∧ ((arg (.buffer buf :: rest) i = .undefined ∨ arg (.buffer buf :: rest) i = .null
          ∨ arg (.buffer buf :: rest) i = .boolean false) →
        (AddressForArgs data (.buffer buf :: rest) i).1 = .ok (ptrAdd buf.Data 0))
    ∧ (arg (.buffer buf :: rest) i = .boolean true →
        (AddressForArgs data (.buffer buf :: rest) i).1 = .ok (ptrAdd buf.Data 1))
    ∧ (∀ n, arg (.buffer buf :: rest) i = .number n →
        (AddressForArgs data (.buffer buf :: rest) i).1
          = .ok (ptrAdd buf.Data (Int64Value (some n))))
    ∧ (∀ id, arg (.buffer buf :: rest) i = .object id →
        (AddressForArgs data (.buffer buf :: rest) i).1
          = (data.env.objectToNumber id).map (fun n => ptrAdd buf.Data (Int64Value n)))
    ∧ (∀ args : List Value, (arg args 0).IsBuffer = false →
        AddressForArgs data args i = (.error .TypeError, data)) := by
  have hsym : ∀ j, (arg (.buffer buf :: rest) j = .symbol
      ∨ ∃ n, arg (.buffer buf :: rest) j = .bigint n) →
      (arg (.buffer buf :: rest) j).ToNumber data.env = .error .TypeError := by
    rintro j (h | ⟨n, h⟩) <;> rw [h] <;> rfl
  refine ⟨?_, ?_, ?_, ?_, ?_, ?_, ?_, ?_, ?_, ?_⟩
  · intro e
    rw [addressForArgs_buffer]
    cases hn : (arg (.buffer buf :: rest) i).ToNumber data.env with
    | error e2 => simp
    | ok n => simp
  · intro e he
    exact addressForArgs_throws data buf rest i e he
  · intro n hn
    exact addressForArgs_converted data buf rest i n hn
  · intro h
    exact addressForArgs_throws data buf rest i .TypeError (hsym i h)
  · intro h
    simp only [Address, addressForArgs_throws data buf rest 1 .TypeError (hsym 1 h)]
  · rintro (h | h | h) <;>
      rw [addressForArgs_converted data buf rest i _ (by rw [h]; rfl)] <;>
      simp [Int64Value]
  · intro h
    rw [addressForArgs_converted data buf rest i _ (by rw [h]; rfl)]
    simp [Int64Value]
  · intro n h
    rw [addressForArgs_converted data buf rest i (some n) (by rw [h]; rfl)]
  · intro id h
    rw [addressForArgs_buffer, h]
    simp only [Value.ToNumber]
    cases data.env.objectToNumber id <;> rfl
  · intro args h
    unfold AddressForArgs
    cases h0 : arg args 0 <;> simp [h0, Value.IsBuffer] at h ⊢

/-- C12, amended, for the buffer at `4096`: with a `Symbol` as the offset the call
fails with `TypeError` and registers nothing, and with no offset argument at all it
returns the address of the buffer. -/
theorem addressForArgs_offset_coercion_witness :
    (AddressForArgs InstanceData.initial [.buffer exampleBuffer, .symbol] 1
        = (.error .TypeError, InstanceData.initial))
    ∧ arg [Value.buffer exampleBuffer] 1 = .undefined
    ∧ (AddressForArgs InstanceData.initial [.buffer exampleBuffer] 1).1
        = .ok (ptrAdd exampleBuffer.Data 0) :=
  ⟨(addressForArgs_offset_coercion InstanceData.initial exampleBuffer [.symbol] 1).2.2.2.1
      (Or.inl rfl),
   rfl,
   (addressForArgs_offset_coercion InstanceData.initial exampleBuffer [] 1).2.2.2.2.2.1
      (Or.inl rfl)⟩

/-! ## C13, C14: `reinterpretUntilZeros` -/

/-- C13. For an element width `w` of `1`, `2`, `4` or `8` bytes, a buffer and offset
whose address `ptr` is not null, and a memory in which the elements at the stride
offsets `0, w, …` below `k = n * w` are not zero and the element at `k` is zero,
with `k` below `kMaxLength`: the export for width `w` returns a view of length
exactly `k` (for `w = 1`, as soon as `strlen` is given more than `k` bytes to look
at). -/
theorem reinterpretUntilZeros_first_zero (data : InstanceData) (buf : Buffer) (offset : Int)
    (w n : Nat) (hw : w = 1 ∨ w = 2 ∨ w = 4 ∨ w = 8)
    (hptr : ptrAdd buf.Data (Int64Value (some offset)) ≠ 0)
    (hk : n * w < kMaxLength)
    (hnz : ∀ i, i < n →
      loadElement data.env.memory (ptrAdd buf.Data (Int64Value (some offset)) + i * w) w ≠ 0)
    (hzero :
      loadElement data.env.memory (ptrAdd buf.Data (Int64Value (some offset)) + n * w) w = 0) :
    ∀ fuel, n * w < fuel →
      ∃ view d,
        reinterpretUntilZerosOfWidth w fuel data [.buffer buf, .number offset]
          = some (.ok view, d)
        ∧ view.length = n * w := by
  intro fuel hfuel
  have htemplate : ∀ hT : 0 < w,
      ReinterpretBufferUntilZeros w hT data [.buffer buf, .number offset]
        = (.ok (WrapPointer (RegisterArrayBufferImpl data buf.ab .AB_PASSED_TO_REF)
              (ptrAdd buf.Data (Int64Value (some offset))) (n * w)).1,
           (WrapPointer (RegisterArrayBufferImpl data buf.ab .AB_PASSED_TO_REF)
              (ptrAdd buf.Data (Int64Value (some offset))) (n * w)).2) := by
    intro hT
    have hscan := scanUntilZeros_stops data.env.memory
      (ptrAdd buf.Data (Int64Value (some offset))) w hT n 0
      (by simpa using hnz) (by simpa using hk) (by simpa using hzero)
    simp only [Nat.zero_add] at hscan
    simp only [ReinterpretBufferUntilZeros,
      addressForArgs_converted data buf [.number offset] 1 (some offset) rfl, register_memory,
      hptr, if_false, hscan]
  have hlen := wrapPointer_length (RegisterArrayBufferImpl data buf.ab .AB_PASSED_TO_REF)
    (ptrAdd buf.Data (Int64Value (some offset))) (n * w) hptr
  rcases hw with h | h | h | h
  · subst h
    have hbyte : ∀ a, loadElement data.env.memory a 1 = data.env.memory a % 256 := by
      intro a
      simp [loadElement]
    simp only [Nat.mul_one, hbyte] at hnz hzero hk hfuel hlen
    have hstr : strlen fuel data.env.memory (ptrAdd buf.Data (Int64Value (some offset)))
        = some n :=
      strlenFrom_first_zero _ _ n hzero fuel 0 (Nat.zero_le _) (by omega)
        (fun j _ hj => hnz j hj)
    have heq : reinterpretUntilZerosOfWidth 1 fuel data [.buffer buf, .number offset]
        = some (.ok (WrapPointer (RegisterArrayBufferImpl data buf.ab .AB_PASSED_TO_REF)
              (ptrAdd buf.Data (Int64Value (some offset))) n).1,
           (WrapPointer (RegisterArrayBufferImpl data buf.ab .AB_PASSED_TO_REF)
              (ptrAdd buf.Data (Int64Value (some offset))) n).2) := by
      simp only [reinterpretUntilZerosOfWidth, _reinterpretUntilZeros8,
        addressForArgs_converted data buf [.number offset] 1 (some offset) rfl,
        register_memory, hptr, if_false, hstr, if_true]
    exact ⟨_, _, heq, by simpa using hlen⟩
  all_goals
    have hT : 0 < w := by omega
    have hne : w = 2 ∨ w = 4 ∨ w = 8 := by omega
    rw [reinterpretUntilZerosOfWidth_template w fuel data _ hT hne, htemplate hT]
    exact ⟨_, _, rfl, hlen⟩

/-- C13 for width `4` and the buffer at `4096`, in a memory whose first zero 32-bit
element is at byte offset `12`: the view is `12` bytes long. -/
theorem reinterpretUntilZeros_first_zero_witness :
    ∃ view d,
      reinterpretUntilZerosOfWidth 4 13 (InstanceData.initial.withMemory memoryZeroAt12)
          [.buffer exampleBuffer, .number 0] = some (.ok view, d)
      ∧ view.length = 3 * 4 :=
  reinterpretUntilZeros_first_zero (InstanceData.initial.withMemory memoryZeroAt12)
    exampleBuffer 0 4 3 (by decide) (by decide) (by decide) (by decide) (by decide) 13
    (by decide)

/-- C14 fails on the code. Width `4`: in a memory with no zero byte the scan from the
buffer at `4096` ends with `size = 0x40000000`, one more than `kMaxLength`, and the
view returned is that long. Width `1`: `strlen` has no bound, and with the first
zero byte `0x40000004` bytes in, the view returned is `0x40000004` bytes long. -/
theorem scan_exceeds_bound :
    (∃ view,
      (_reinterpretUntilZeros32 (InstanceData.initial.withMemory memoryNoZero)
          [.buffer exampleBuffer, .number 0]).1 = .ok view
      ∧ view.length = 0x40000000 ∧ kMaxLength < view.length)
    ∧ (∃ view d,
      _reinterpretUntilZeros8 0x40000005 (InstanceData.initial.withMemory memoryLateZero)
          [.buffer exampleBuffer, .number 0] = some (.ok view, d)
      ∧ view.length = 0x40000004 ∧ kMaxLength < view.length) := by
  have hptr : ptrAdd exampleBuffer.Data (Int64Value (some 0)) = 4096 := by
    decide
  have hconv : ∀ data : InstanceData,
      AddressForArgs data [.buffer exampleBuffer, .number 0] 1
        = (.ok (ptrAdd exampleBuffer.Data (Int64Value (some 0))),
           RegisterArrayBufferImpl data exampleBuffer.ab .AB_PASSED_TO_REF) :=
    fun data => addressForArgs_converted data exampleBuffer [.number 0] 1 (some 0) rfl
  have hmem : ∀ memory, (InstanceData.initial.withMemory memory).env.memory = memory :=
    fun _ => rfl
  have h4096 : ¬ ((4096 : Nat) = 0) := by decide
  constructor
  · have hscan : scanUntilZeros memoryNoZero 4096 4 (by decide) 0 = 0x40000000 := by
      have := scanUntilZeros_runs_out memoryNoZero 4096 4 (by decide) 0x10000000 0
        (by
          intro i hi
          refine ⟨by unfold kMaxLength; omega, ?_⟩
          simp [loadElement, memoryNoZero])
        (by unfold kMaxLength; omega)
      simpa using this
    have heq : (_reinterpretUntilZeros32 (InstanceData.initial.withMemory memoryNoZero)
        [.buffer exampleBuffer, .number 0]).1
        = .ok (WrapPointer
            (RegisterArrayBufferImpl (InstanceData.initial.withMemory memoryNoZero)
              exampleBuffer.ab .AB_PASSED_TO_REF) 4096 0x40000000).1 := by
      simp only [_reinterpretUntilZeros32, ReinterpretBufferUntilZeros, hconv,
        register_memory, hptr, hmem, hscan, h4096, if_false]
    refine ⟨_, heq, wrapPointer_length _ 4096 0x40000000 (by decide), ?_⟩
    rw [wrapPointer_length _ 4096 0x40000000 (by decide)]
    decide
  · have hstr : strlen 0x40000005 memoryLateZero 4096 = some 0x40000004 :=
      strlenFrom_first_zero memoryLateZero 4096 0x40000004 (by simp [memoryLateZero])
        0x40000005 0 (by omega) (by omega)
        (by
          intro j _ hj
          have : 4096 + j ≠ 4096 + 0x40000004 := by omega
          simp [memoryLateZero, this])
    have heq : _reinterpretUntilZeros8 0x40000005
        (InstanceData.initial.withMemory memoryLateZero) [.buffer exampleBuffer, .number 0]
        = some (.ok (WrapPointer
            (RegisterArrayBufferImpl (InstanceData.initial.withMemory memoryLateZero)
              exampleBuffer.ab .AB_PASSED_TO_REF) 4096 0x40000004).1,
          (WrapPointer
            (RegisterArrayBufferImpl (InstanceData.initial.withMemory memoryLateZero)
              exampleBuffer.ab .AB_PASSED_TO_REF) 4096 0x40000004).2) := by
      simp only [_reinterpretUntilZeros8, hconv, register_memory, hptr, hmem,
        hstr, h4096, if_false]
    refine ⟨_, _, heq, wrapPointer_length _ 4096 0x40000004 (by decide), ?_⟩
    rw [wrapPointer_length _ 4096 0x40000004 (by decide)]
    decide

/-! ## C15: pinning -/

/-- C15. `WritePointer(a, b, offset, true)` succeeds and attaches to the object `a` a
finalizer that deletes a persistent reference to the object `b`. In every state
reached afterwards by calls of the module, by the collector and by deliveries of
finalizers of objects other than `a`, that finalizer is still pending, so `b` is
still held; it leaves the list only when the finalizer of `a` is delivered. With
three arguments, with `false` as the fourth, or with `null` in place of `b`, the call
attaches no such finalizer: every pending reference deletion was pending before. -/
theorem pin_keeps_alive (data : InstanceData) (a b : Buffer) (offset : Int) :
    (WritePointer data [.buffer a, .buffer b, .number offset, .boolean true]).1 = .ok ()
    ∧ (a.id, Finalizer.deleteRef b.id)
        ∈ (WritePointer data
            [.buffer a, .buffer b, .number offset, .boolean true]).2.env.finalizers
    ∧ (∀ d, Relation.ReflTransGen (StepKeeping a.id)
          (WritePointer data [.buffer a, .buffer b, .number offset, .boolean true]).2 d →
        (a.id, Finalizer.deleteRef b.id) ∈ d.env.finalizers ∧ d.held b.id)
    ∧ (∀ d d2 : InstanceData, d.deliver a.id (.deleteRef b.id) = .ok d2 →
        d2.env.finalizers = d.env.finalizers.erase (a.id, .deleteRef b.id))
    ∧ (∀ x t,
        (x, Finalizer.deleteRef t)
          ∈ (WritePointer data [.buffer a, .buffer b, .number offset]).2.env.finalizers →
        (x, Finalizer.deleteRef t) ∈ data.env.finalizers)
    ∧ (∀ x t,
        (x, Finalizer.deleteRef t)
          ∈ (WritePointer data
              [.buffer a, .buffer b, .number offset, .boolean false]).2.env.finalizers →
        (x, Finalizer.deleteRef t) ∈ data.env.finalizers)
    ∧ (∀ x t,
        (x, Finalizer.deleteRef t)
          ∈ (WritePointer data
              [.buffer a, .null, .number offset, .boolean true]).2.env.finalizers →
        (x, Finalizer.deleteRef t) ∈ data.env.finalizers) := by
  obtain ⟨hpin, hfalse, hthree, hnull⟩ := writePointer_buffer data a b offset
  have hlink : (a.id, Finalizer.deleteRef b.id)
      ∈ (WritePointer data
          [.buffer a, .buffer b, .number offset, .boolean true]).2.env.finalizers := by
    rw [hpin]
    apply (poke_preserves 0 _ _ _).1
    apply (register_preserves 0 _ _ _).1
    simp [InstanceData.AddFinalizer]
  refine ⟨by rw [hpin], hlink, ?_, ?_, ?_, ?_, ?_⟩
  · intro d hd
    have hmem : (a.id, Finalizer.deleteRef b.id) ∈ d.env.finalizers := by
      induction hd with
      | refl => exact hlink
      | tail _ hstep ih => exact stepKeeping_keeps a.id _ _ hstep _ ih
    exact ⟨hmem, a.id, hmem⟩
  · intro d d2 hd
    unfold InstanceData.deliver at hd
    injection hd with hd
    subst hd
    rfl
  · intro x t hx
    rw [hthree] at hx
    exact register_deleteRef_mem _ _ _ x t (register_deleteRef_mem _ _ _ x t hx)
  · intro x t hx
    rw [hfalse] at hx
    exact register_deleteRef_mem _ _ _ x t (register_deleteRef_mem _ _ _ x t hx)
  · intro x t hx
    rw [hnull] at hx
    exact register_deleteRef_mem _ _ _ x t hx

/-- C15 from the initial state, pinning the buffer at `8192` to the buffer at `4096`:
after a later `ReadPointer` through the first buffer the second is still held. -/
theorem pin_keeps_alive_witness :
    (ReadPointer
        (WritePointer InstanceData.initial
          [.buffer exampleBuffer, .buffer exampleTarget, .number 0, .boolean true]).2
        [.buffer exampleBuffer, .number 0, .number 16]).2.held exampleTarget.id :=
  ((pin_keeps_alive InstanceData.initial exampleBuffer exampleTarget 0).2.2.1 _
    (Relation.ReflTransGen.single (StepKeeping.readPointer _ _))).2

/-! ## C16: the registry invariant -/

/-- C16 fails on the code. On a runtime whose largest buffer length is `2 ^ 53 - 1`,
`LookupOrCreateArrayBuffer` for the address `4096` with the length `2 ^ 64 - 1`, which
is what the length `-1` of `readPointer` becomes as a `size_t`, is refused by the
constructor, which runs the release callback at once. From the empty registry the
callback finds no entry and `UnregisterArrayBuffer` dereferences `end()`. From the
state in which the buffer created for `4096` has been reclaimed and its callback is
still pending, the callback run by the constructor erases the entry, the call
throws, and the state it leaves has one callback pending for `4096` and no entry:
its delivery dereferences `end()`. -/
theorem refused_construction_runs_callback :
    toSizeT (Int64Value (some (-1))) = 2 ^ 64 - 1
    ∧ LookupOrCreateArrayBufferHost (2 ^ 53 - 1) InstanceData.initial 4096 (2 ^ 64 - 1)
        (by decide) = .fault .endDereferenced
    ∧ ((LookupOrCreateArrayBuffer InstanceData.initial 4096 16 (by decide)).2.collect 0).count
        4096 = 1
    ∧ ((LookupOrCreateArrayBuffer InstanceData.initial 4096 16 (by decide)).2.collect 0).pending
        4096 = 1
    ∧ ∃ d,
      LookupOrCreateArrayBufferHost (2 ^ 53 - 1)
          ((LookupOrCreateArrayBuffer InstanceData.initial 4096 16 (by decide)).2.collect 0)
          4096 (2 ^ 64 - 1) (by decide) = .thrown .Error d
      ∧ d.pointer_to_orig_buffer 4096 = none
      ∧ d.pending 4096 = 1
      ∧ (0, Finalizer.unregister 4096) ∈ d.env.finalizers
      ∧ d.deliver 0 (.unregister 4096) = .error .endDereferenced := by
  refine ⟨by decide, by rfl, by rfl, by rfl, _, by rfl, by rfl, by rfl, by decide, by rfl⟩

/-! ## C17: address resolution registers the buffer -/

/-- C17, as stated, fails: the offset is coerced before the buffer is registered.
With a `Symbol` as the offset, `Address` and `ReadPointer` of the buffer at `4096`
throw `TypeError` and the registry has no entry for `4096` afterwards; the same
holds for `WritePointer` with a `BigInt` as the offset. -/
theorem throwing_offset_skips_registration :
    exampleBuffer.ab.data = 4096
    ∧ InstanceData.initial.pointer_to_orig_buffer 4096 = none
    ∧ (Address InstanceData.initial [.buffer exampleBuffer, .symbol]).1 = .error .TypeError
    ∧ (Address InstanceData.initial [.buffer exampleBuffer, .symbol]).2.pointer_to_orig_buffer
        4096 = none
    ∧ (ReadPointer InstanceData.initial [.buffer exampleBuffer, .symbol, .number 8]).1
        = .error .TypeError
    ∧ (ReadPointer InstanceData.initial
        [.buffer exampleBuffer, .symbol, .number 8]).2.pointer_to_orig_buffer 4096 = none
    ∧ (WritePointer InstanceData.initial
        [.buffer exampleBuffer, .buffer exampleTarget, .bigint 0]).1 = .error .TypeError
    ∧ (WritePointer InstanceData.initial
        [.buffer exampleBuffer, .buffer exampleTarget, .bigint 0]).2.pointer_to_orig_buffer 4096
        = none := by
  refine ⟨by rfl, by rfl, by rfl, by rfl, by rfl, by rfl, by rfl, by rfl⟩

/-- C17, amended. For a buffer whose `ArrayBuffer` has a non-null base address `p`, and
whatever the other arguments are. When the coercion of the offset argument gives a
number: after `Address`, `ReadPointer`, `ReadObject`, `ReinterpretBufferUntilZeros<T>`
and `_reinterpretUntilZeros8` (offset in `args[1]`), and after `WritePointer`,
`WriteObject` and `ReinterpretBuffer` (offset in `args[2]`), the entry of the
registry for `p` is the one `RegisterArrayBufferImpl(buf, AB_PASSED_TO_REF)` leaves
from the state before the call, also when the call then throws. That entry exists
with a valid reference; it has count `1` and refers to the buffer when there was
none before, and is the entry that was there when that one had a valid reference.
`_reinterpretUntilZeros8` returns when the address is null, and when there is a zero
byte at or after the address and `strlen` is given enough bytes to reach it. When
the coercion of the offset argument throws, each of the calls throws the same
exception and leaves the state as it was: the buffer is not registered.
`WritePointer` with a numeric offset and a source buffer of non-null base address
leaves a valid entry for that address too. -/
theorem address_resolution_after_coercion (data : InstanceData) (buf : Buffer)
    (rest : List Value) (hbase : buf.ab.data ≠ 0) :
    (∃ it ab,
      (RegisterArrayBufferImpl data buf.ab .AB_PASSED_TO_REF).pointer_to_orig_buffer buf.ab.data
        = some it ∧ it.ab = some ab)
    ∧ (data.pointer_to_orig_buffer buf.ab.data = none →
        (RegisterArrayBufferImpl data buf.ab .AB_PASSED_TO_REF).pointer_to_orig_buffer buf.ab.data
          = some { ab := some buf.ab, finalizer_count := 1 })
    ∧ (∀ it, data.pointer_to_orig_buffer buf.ab.data = some it → it.ab.isSome = true →
        (RegisterArrayBufferImpl data buf.ab .AB_PASSED_TO_REF).pointer_to_orig_buffer buf.ab.data
          = some it)
    ∧ (∀ n, (arg (.buffer buf :: rest) 1).ToNumber data.env = .ok n →
        (Address data (.buffer buf :: rest)).2.pointer_to_orig_buffer buf.ab.data
          = (RegisterArrayBufferImpl data buf.ab .AB_PASSED_TO_REF).pointer_to_orig_buffer
              buf.ab.data
        ∧ (ReadPointer data (.buffer buf :: rest)).2.pointer_to_orig_buffer buf.ab.data
          = (RegisterArrayBufferImpl data buf.ab .AB_PASSED_TO_REF).pointer_to_orig_buffer
              buf.ab.data
        ∧ (∀ refs,
            (ReadObject data refs (.buffer buf :: rest)).2.pointer_to_orig_buffer buf.ab.data
            = (RegisterArrayBufferImpl data buf.ab .AB_PASSED_TO_REF).pointer_to_orig_buffer
                buf.ab.data)
        ∧ (∀ w (hT : 0 < w),
            (ReinterpretBufferUntilZeros w hT data (.buffer buf :: rest)).2.pointer_to_orig_buffer
                buf.ab.data
            = (RegisterArrayBufferImpl data buf.ab .AB_PASSED_TO_REF).pointer_to_orig_buffer
                buf.ab.data)
        ∧ (∀ fuel k,
            (ptrAdd buf.Data (Int64Value n) = 0
              ∨ (data.env.memory (ptrAdd buf.Data (Int64Value n) + k) % 256 = 0 ∧ k < fuel)) →
            ∃ r, _reinterpretUntilZeros8 fuel data (.buffer buf :: rest) = some r
              ∧ r.2.pointer_to_orig_buffer buf.ab.data
                = (RegisterArrayBufferImpl data buf.ab .AB_PASSED_TO_REF).pointer_to_orig_buffer
                    buf.ab.data))
    ∧ (∀ n, (arg (.buffer buf :: rest) 2).ToNumber data.env = .ok n →
        (WritePointer data (.buffer buf :: rest)).2.pointer_to_orig_buffer buf.ab.data
          = (RegisterArrayBufferImpl data buf.ab .AB_PASSED_TO_REF).pointer_to_orig_buffer
              buf.ab.data
        ∧ (∀ refs,
            (WriteObject data refs (.buffer buf :: rest)).2.1.pointer_to_orig_buffer buf.ab.data
            = (RegisterArrayBufferImpl data buf.ab .AB_PASSED_TO_REF).pointer_to_orig_buffer
                buf.ab.data)
        ∧ (ReinterpretBuffer data (.buffer buf :: rest)).2.pointer_to_orig_buffer buf.ab.data
          = (RegisterArrayBufferImpl data buf.ab .AB_PASSED_TO_REF).pointer_to_orig_buffer
              buf.ab.data)
    ∧ (∀ e, (arg (.buffer buf :: rest) 1).ToNumber data.env = .error e →
        Address data (.buffer buf :: rest) = (.error e, data)
        ∧ ReadPointer data (.buffer buf :: rest) = (.error e, data)
        ∧ (∀ refs, ReadObject data refs (.buffer buf :: rest) = (.error e, data))
        ∧ (∀ w (hT : 0 < w),
            ReinterpretBufferUntilZeros w hT data (.buffer buf :: rest) = (.error e, data))
        ∧ (∀ fuel, _reinterpretUntilZeros8 fuel data (.buffer buf :: rest)
            = some (.error e, data)))
    ∧ (∀ e, (arg (.buffer buf :: rest) 2).ToNumber data.env = .error e →
        WritePointer data (.buffer buf :: rest) = (.error e, data)
        ∧ (∀ refs, WriteObject data refs (.buffer buf :: rest) = (.error e, data, refs))
        ∧ ReinterpretBuffer data (.buffer buf :: rest) = (.error e, data))
    ∧ (∀ (src : Buffer) (offset : Int), src.ab.data ≠ 0 →
        (∃ it ab,
          (WritePointer data [.buffer buf, .buffer src, .number offset]).2.pointer_to_orig_buffer
            src.ab.data = some it ∧ it.ab = some ab)
        ∧ ∀ pin : Bool, ∃ it ab,
          (WritePointer data
            [.buffer buf, .buffer src, .number offset, .boolean pin]).2.pointer_to_orig_buffer
            src.ab.data = some it ∧ it.ab = some ab) := by
  have hres : ∀ i n, (arg (.buffer buf :: rest) i).ToNumber data.env = .ok n →
      (AddressForArgs data (.buffer buf :: rest) i).2
        = RegisterArrayBufferImpl data buf.ab .AB_PASSED_TO_REF := by
    intro i n hn
    rw [addressForArgs_converted data buf rest i n hn]
  refine ⟨register_makes_valid data buf.ab _ hbase,
    register_on_absent data buf.ab _ hbase, ?_, ?_, ?_, ?_, ?_, ?_⟩
  · intro it hit hvalid
    unfold RegisterArrayBufferImpl
    simp [hbase, hit, hvalid]
  · intro n hn
    refine ⟨?_, ?_, ?_, ?_, ?_⟩
    · exact after_registration data _ buf hbase (hres 1 n hn ▸ address_after _ data _)
    · exact after_registration data _ buf hbase (hres 1 n hn ▸ readPointer_after _ data _)
    · intro refs
      exact after_registration data _ buf hbase (hres 1 n hn ▸ readObject_after _ data refs _)
    · intro w hT
      exact after_registration data _ buf hbase
        (hres 1 n hn ▸ reinterpretUntilZeros_after _ w hT data _)
    · intro fuel k hzero
      obtain ⟨r, hr⟩ := reinterpretUntilZeros8_returns fuel k data buf rest n hn hzero
      exact ⟨r, hr, after_registration data _ buf hbase
        (hres 1 n hn ▸ reinterpretUntilZeros8_after _ fuel data _ r hr)⟩
  · intro n hn
    refine ⟨?_, ?_, ?_⟩
    · exact after_registration data _ buf hbase (hres 2 n hn ▸ writePointer_after _ data _)
    · intro refs
      exact after_registration data _ buf hbase (hres 2 n hn ▸ writeObject_after _ data refs _)
    · exact after_registration data _ buf hbase (hres 2 n hn ▸ reinterpret_after _ data _)
  · intro e he
    have hthrow := addressForArgs_throws data buf rest 1 e he
    refine ⟨?_, ?_, ?_, ?_, ?_⟩
    · simp only [Address, hthrow]
    · simp only [ReadPointer, hthrow]
    · intro refs
      simp only [ReadObject, hthrow]
    · intro w hT
      simp only [ReinterpretBufferUntilZeros, hthrow]
    · intro fuel
      simp only [_reinterpretUntilZeros8, hthrow]
  · intro e he
    have hthrow := addressForArgs_throws data buf rest 2 e he
    refine ⟨?_, ?_, ?_⟩
    · simp only [WritePointer, hthrow]
    · intro refs
      simp only [WriteObject, hthrow]
    · simp only [ReinterpretBuffer, hthrow]
  · intro src offset hsrc
    obtain ⟨hpin, hfalse, hthree, _⟩ := writePointer_buffer data buf src offset
    refine ⟨?_, ?_⟩
    · rw [hthree]
      exact register_makes_valid _ src.ab _ hsrc
    · intro pin
      cases pin with
      | true =>
        rw [hpin]
        exact register_makes_valid _ src.ab _ hsrc
      | false =>
        rw [hfalse]
        exact register_makes_valid _ src.ab _ hsrc

/-- C17, amended, for `ReadPointer` on the buffer at `4096` with offset `-4096`: the
offset is a number, the address is null and the call throws, and the registry holds
the entry for `4096` all the same. -/
theorem address_resolution_after_coercion_witness :
    exampleBuffer.ab.data ≠ 0
    ∧ (arg [.buffer exampleBuffer, .number (-4096), .number 8] 1).ToNumber
        InstanceData.initial.env = .ok (some (-4096))
    ∧ (ReadPointer InstanceData.initial
        [.buffer exampleBuffer, .number (-4096), .number 8]).1 = .error .Error
    ∧ (ReadPointer InstanceData.initial
        [.buffer exampleBuffer, .number (-4096), .number 8]).2.pointer_to_orig_buffer 4096
      = some { ab := some exampleBuffer.ab, finalizer_count := 1 } := by
  have h := address_resolution_after_coercion InstanceData.initial exampleBuffer
    [.number (-4096), .number 8] (by decide)
  exact ⟨by decide, rfl, by rfl, ((h.2.2.2.1 (some (-4096)) rfl).2.1).trans (h.2.1 rfl)⟩

end RefNapi
